import Mathlib

/-!
Verification of the `um-unlockMusic` music-file decryption tool.

Bytes are modelled as `Nat` values (the source operates on Go `byte`/`uint8`;
where 8-bit truncation matters it is written explicitly as `% 256`), buffers
as `List Nat`, and Go strings as Lean `String`.  Each definition is a direct
translation of the Go function of the same (or closely related) name.
-/

/-- `startsWithBytes l p` is Go's `bytes.HasPrefix(l, p)`. -/
def startsWithBytes : List Nat → List Nat → Bool
  | _, [] => true
  | [], _ :: _ => false
  | a :: as, b :: bs => (a = b) && startsWithBytes as bs

/-- Big-endian `uint32` of the first four bytes, Go's `binary.BigEndian.Uint32(b[0:4])`. -/
def beUint32 (b : List Nat) : Nat :=
  b.getD 0 0 * 16777216 + b.getD 1 0 * 65536 + b.getD 2 0 * 256 + b.getD 3 0

/-- Little-endian `uint32` of the first four bytes, Go's `binary.LittleEndian.Uint32(b[0:4])`. -/
def leUint32 (b : List Nat) : Nat :=
  b.getD 0 0 + b.getD 1 0 * 256 + b.getD 2 0 * 65536 + b.getD 3 0 * 16777216

/-! ## Output sniffer (internal/sniff, file `temp.go`) -/

/-- The bytes of `"OggS"`. -/
def oggSBytes : List Nat := [79, 103, 103, 83]

/-- The bytes of `"fLaC"`. -/
def fLaCBytes : List Nat := [102, 76, 97, 67]

/-- The bytes of `"RIFF"`. -/
def riffBytes : List Nat := [82, 73, 70, 70]

/-- The bytes of `"FRM8"`. -/
def frm8Bytes : List Nat := [70, 82, 77, 56]

/-- The 16-byte WMA GUID header from `AudioExtension`. -/
def wmaBytes : List Nat :=
  [0x30, 0x26, 0xb2, 0x75, 0x8e, 0x66, 0xcf, 0x11,
   0xa6, 0xd9, 0x00, 0xaa, 0x00, 0x62, 0xce, 0x6c]

/-- The bytes of `"ftyp"`. -/
def ftypBytes : List Nat := [102, 116, 121, 112]

/-- The bytes of `"ID3"`. -/
def id3Bytes : List Nat := [73, 68, 51]

/-- The bytes of `"M4A "`. -/
def m4aBrandBytes : List Nat := [77, 52, 65, 32]

/-- An MPEG-4 `ftyp` box, structure `mpeg4FtpyBox` of the source. -/
structure Mpeg4FtypBox where
  majorBrand : List Nat
  minorVersion : Nat
  compatibleBrands : List (List Nat)
deriving DecidableEq, Repr

/-- Compatible-brand loop of `readMpeg4FtypBox`:
`for i := 16; i < int(size) && i+4 < len(header); i += 4` collecting `header[i:i+4]`.
Translated with the loop counter `i` explicit; the strict `i+4 < len(header)` guard of
the source is kept as written. -/
def ftypBrands (header : List Nat) (size : Nat) (i : Nat) : List (List Nat) :=
  if i < size ∧ i + 4 < header.length then
    ((header.drop i).take 4) :: ftypBrands header size (i + 4)
  else []
termination_by size - i
decreasing_by
  rename_i h
  omega

/-- `readMpeg4FtypBox` of the source.  Returns `none` for an invalid box.
(For a head of length 8..15 carrying a `ftyp` tag and a well-formed size the Go code
would panic on the `header[8:12]`/`header[12:16]` slices; the model reads the missing
bytes as 0.  No claim depends on such heads.) -/
def readMpeg4FtypBox (header : List Nat) : Option Mpeg4FtypBox :=
  if header.length < 8 ∨ ¬ ((header.drop 4).take 4 = ftypBytes) then none
  else
    let size := beUint32 header
    if size < 16 ∨ size % 4 ≠ 0 then none
    else some
      { majorBrand := (header.drop 8).take 4
        minorVersion := beUint32 (header.drop 12)
        compatibleBrands := ftypBrands header size 16 }

/-- `m4aSniffer.Sniff`: a valid `ftyp` box whose major brand is `"M4A "` or which lists
`"M4A "` among its compatible brands. -/
def m4aSniff (header : List Nat) : Bool :=
  match readMpeg4FtypBox header with
  | none => false
  | some box => box.majorBrand = m4aBrandBytes || box.compatibleBrands.contains m4aBrandBytes

/-- `mpeg4Sniffer.Sniff`: any valid `ftyp` box. -/
def mpeg4Sniff (header : List Nat) : Bool :=
  (readMpeg4FtypBox header).isSome

/-- `mp3Sniffer.isValidMP3Frame`: 4 bytes form a valid MPEG audio frame header. -/
def isValidMP3Frame (frame : List Nat) : Bool :=
  if frame.length < 4 then false
  else
    let b0 := frame.getD 0 0
    let b1 := frame.getD 1 0
    let b2 := frame.getD 2 0
    -- sync bits: first 11 bits all ones
    if ¬ (b0 = 0xFF ∧ b1 &&& 0xE0 = 0xE0) then false
    -- MPEG version: reserved value 1 refused
    else if (b1 >>> 3) &&& 0x03 = 1 then false
    -- layer: reserved value 0 refused
    else if (b1 >>> 1) &&& 0x03 = 0 then false
    -- bitrate: free (0) and reserved (15) refused
    else if (b2 >>> 4) &&& 0x0F = 0 ∨ (b2 >>> 4) &&& 0x0F = 15 then false
    -- sampling frequency: reserved value 3 refused
    else if (b2 >>> 2) &&& 0x03 = 3 then false
    else true

/-- `mp3Sniffer.isMP3FrameHeader`: scan every offset `i ≤ len-4` for a valid frame. -/
def mp3FrameScan : List Nat → Bool
  | [] => false
  | b :: rest =>
    if (b :: rest).length < 4 then false
    else isValidMP3Frame (b :: rest) || mp3FrameScan rest

/-- `mp3Sniffer.Sniff`: heads shorter than 4 bytes are refused; then an `ID3` prefix or
a frame header found anywhere in the head. -/
def mp3Sniff (header : List Nat) : Bool :=
  if header.length < 4 then false
  else startsWithBytes header id3Bytes || mp3FrameScan header

/-- `sniff.AudioExtension`: the priority-ordered recognition ladder of the source. -/
def AudioExtension (header : List Nat) : Option String :=
  if startsWithBytes header oggSBytes then some ".ogg"
  else if startsWithBytes header fLaCBytes then some ".flac"
  else if startsWithBytes header riffBytes then some ".wav"
  else if startsWithBytes header frm8Bytes then some ".dff"
  else if startsWithBytes header wmaBytes then some ".wma"
  else if m4aSniff header then some ".m4a"
  else if mpeg4Sniff header then some ".mp4"
  else if mp3Sniff header then some ".mp3"
  else none

/-- `getSmartFallback` of the source: extension-based fallback mapping. -/
def getSmartFallback (inputExt : String) : String :=
  if inputExt = ".mgg" ∨ inputExt = ".mgg0" ∨ inputExt = ".mgg1" ∨ inputExt = ".mgga" ∨
     inputExt = ".mggh" ∨ inputExt = ".mggl" ∨ inputExt = ".mggm" then ".ogg"
  else if inputExt = ".mflac" ∨ inputExt = ".mflac0" ∨ inputExt = ".mflac1" ∨
          inputExt = ".mflaca" ∨ inputExt = ".mflach" ∨ inputExt = ".mflacl" ∨
          inputExt = ".mflacm" then ".flac"
  else if inputExt = ".qmcflac" then ".flac"
  else if inputExt = ".qmcogg" then ".ogg"
  else ".mp3"

/-- `sniff.AudioExtensionWithSmartFallback` of the source. -/
def AudioExtensionWithSmartFallback (header : List Nat) (inputExt : String) : String :=
  match AudioExtension header with
  | some ext => ext
  | none => getSmartFallback inputExt

/-- The spec's recognition table (§4.4), written as an ordered rule list:
Ogg > FLAC > WAV > DFF > WMA > M4A > MP4 > MP3.  This definition follows the
spec's words and is compared with `AudioExtension`, which is translated from
the source. -/
def specSniffTable : List (String × (List Nat → Bool)) :=
  [ (".ogg", fun l => startsWithBytes l oggSBytes)
  , (".flac", fun l => startsWithBytes l fLaCBytes)
  , (".wav", fun l => startsWithBytes l riffBytes)
  , (".dff", fun l => startsWithBytes l frm8Bytes)
  , (".wma", fun l => startsWithBytes l wmaBytes)
  , (".m4a", m4aSniff)
  , (".mp4", mpeg4Sniff)
  , (".mp3", mp3Sniff) ]

/-- First matching rule of an ordered rule table. -/
def specFirstMatch : List (String × (List Nat → Bool)) → List Nat → Option String
  | [], _ => none
  | (ext, p) :: rest, l => if p l then some ext else specFirstMatch rest l

/-- C3: a head beginning with `OggS` sniffs as `.ogg` whatever follows, and in
general `AudioExtension` returns the first matching rule of the spec's
priority table (so whenever a head matches several rules the highest-priority
rule determines the extension). -/
theorem sniff_ogg_priority :
    (∀ header : List Nat, startsWithBytes header oggSBytes = true →
      AudioExtension header = some ".ogg") ∧
    (∀ header : List Nat, AudioExtension header = specFirstMatch specSniffTable header) := by
  constructor
  · intro header h
    simp [AudioExtension, h]
  · intro header
    rfl

/-- Witness for C3 at the claim's own example: `"OggS"` followed by a valid MPEG
frame header at offset 4 still sniffs as `.ogg`. -/
theorem sniff_ogg_priority_witness :
    AudioExtension [79, 103, 103, 83, 0xFF, 0xFB, 0x90, 0x00] = some ".ogg" :=
  sniff_ogg_priority.1 [79, 103, 103, 83, 0xFF, 0xFB, 0x90, 0x00] (by decide)

/-- A list shorter than 4 bytes is never a valid frame. -/
theorem isValidMP3Frame_short {l : List Nat} (h : l.length < 4) :
    isValidMP3Frame l = false := by
  simp [isValidMP3Frame, h]

/-- The frame scan succeeds exactly when a valid frame starts at some offset. -/
theorem mp3FrameScan_iff_exists (l : List Nat) :
    mp3FrameScan l = true ↔ ∃ i, isValidMP3Frame (l.drop i) = true := by
  induction l with
  | nil =>
    simp [mp3FrameScan, isValidMP3Frame]
  | cons b rest ih =>
    by_cases hlen : (b :: rest).length < 4
    · simp only [mp3FrameScan, if_pos hlen]
      constructor
      · intro h
        exact absurd h (by simp)
      · rintro ⟨i, hi⟩
        have hdrop : ((b :: rest).drop i).length < 4 :=
          lt_of_le_of_lt (by simp) hlen
        rw [isValidMP3Frame_short hdrop] at hi
        exact absurd hi (by simp)
    · simp only [mp3FrameScan, if_neg hlen, Bool.or_eq_true, ih]
      constructor
      · rintro (h | ⟨i, hi⟩)
        · exact ⟨0, by simpa using h⟩
        · exact ⟨i + 1, by simpa using hi⟩
      · rintro ⟨i, hi⟩
        match i with
        | 0 => exact Or.inl (by simpa using hi)
        | j + 1 => exact Or.inr ⟨j, by simpa using hi⟩

/-- C6 counterexample: the head `00 00 00 00 FF FB 90 00` has no `ID3` prefix and no
valid MPEG frame header starting in its first 4 bytes (offsets 0..3), matches no
higher-priority rule, yet the sniffer classifies it as `.mp3`: the source scans the
whole head for a frame header, not only the first 4 bytes. -/
theorem sniff_mp3_beyond4_counterexample :
    AudioExtension [0, 0, 0, 0, 0xFF, 0xFB, 0x90, 0x00] = some ".mp3" ∧
    startsWithBytes [0, 0, 0, 0, 0xFF, 0xFB, 0x90, 0x00] id3Bytes = false ∧
    isValidMP3Frame (List.drop 0 [0, 0, 0, 0, 0xFF, 0xFB, 0x90, 0x00]) = false ∧
    isValidMP3Frame (List.drop 1 [0, 0, 0, 0, 0xFF, 0xFB, 0x90, 0x00]) = false ∧
    isValidMP3Frame (List.drop 2 [0, 0, 0, 0, 0xFF, 0xFB, 0x90, 0x00]) = false ∧
    isValidMP3Frame (List.drop 3 [0, 0, 0, 0, 0xFF, 0xFB, 0x90, 0x00]) = false ∧
    isValidMP3Frame (List.drop 4 [0, 0, 0, 0, 0xFF, 0xFB, 0x90, 0x00]) = true := by
  decide

/-- C6 amended: when no higher-priority rule matches, the sniffer classifies a head as
`.mp3` exactly when the head is at least 4 bytes long and either has an `ID3` prefix or
contains a valid MPEG audio frame header at SOME offset of the head (not merely in the
first 4 bytes). -/
theorem sniff_mp3_characterisation (header : List Nat)
    (hogg : startsWithBytes header oggSBytes = false)
    (hflac : startsWithBytes header fLaCBytes = false)
    (hwav : startsWithBytes header riffBytes = false)
    (hdff : startsWithBytes header frm8Bytes = false)
    (hwma : startsWithBytes header wmaBytes = false)
    (hm4a : m4aSniff header = false)
    (hmp4 : mpeg4Sniff header = false) :
    AudioExtension header = some ".mp3" ↔
      4 ≤ header.length ∧
        (startsWithBytes header id3Bytes = true ∨
          ∃ i, isValidMP3Frame (header.drop i) = true) := by
  simp only [AudioExtension, hogg, hflac, hwav, hdff, hwma, hm4a, hmp4,
    Bool.false_eq_true, if_false]
  by_cases hmp3 : mp3Sniff header = true
  · simp only [hmp3, if_true, true_iff]
    unfold mp3Sniff at hmp3
    by_cases hlen : header.length < 4
    · simp [hlen] at hmp3
    · refine ⟨by omega, ?_⟩
      rw [if_neg hlen, Bool.or_eq_true, mp3FrameScan_iff_exists] at hmp3
      simpa using hmp3
  · simp only [Bool.not_eq_true] at hmp3
    simp only [hmp3, Bool.false_eq_true, if_false]
    constructor
    · intro h
      exact absurd h (by simp)
    · rintro ⟨hlen, hcase⟩
      have htrue : mp3Sniff header = true := by
        unfold mp3Sniff
        rw [if_neg (by omega : ¬ header.length < 4)]
        rcases hcase with h | h
        · simp [h]
        · simp [(mp3FrameScan_iff_exists header).mpr h]
      rw [hmp3] at htrue
      exact absurd htrue (by simp)

/-- Witness for C6's amended theorem at the counterexample head: no higher rule
matches, and the characterisation yields `.mp3` from the frame at offset 4. -/
theorem sniff_mp3_characterisation_witness :
    AudioExtension [0, 0, 0, 0, 0xFF, 0xFB, 0x90, 0x00] = some ".mp3" ↔
      4 ≤ ([0, 0, 0, 0, 0xFF, 0xFB, 0x90, 0x00] : List Nat).length ∧
        (startsWithBytes [0, 0, 0, 0, 0xFF, 0xFB, 0x90, 0x00] id3Bytes = true ∨
          ∃ i, isValidMP3Frame (List.drop i [0, 0, 0, 0, 0xFF, 0xFB, 0x90, 0x00]) = true) :=
  sniff_mp3_characterisation [0, 0, 0, 0, 0xFF, 0xFB, 0x90, 0x00]
    (by decide) (by decide) (by decide) (by decide) (by decide) (by decide) (by decide)

/-- C7: when the sniffer recognises no format, the result is exactly the smart
fallback determined by the input extension; the fallback maps the `mgg` family to
`.ogg`, the `mflac` family to `.flac`, `.qmcflac` to `.flac`, `.qmcogg` to `.ogg`,
and every other extension to `.mp3`; in particular a head of 8 zero bytes with input
extension `.mgg` yields `.ogg`. -/
theorem sniff_smart_fallback :
    (∀ (header : List Nat) (inputExt : String), AudioExtension header = none →
        AudioExtensionWithSmartFallback header inputExt = getSmartFallback inputExt) ∧
    (getSmartFallback ".mgg" = ".ogg" ∧ getSmartFallback ".mgg0" = ".ogg" ∧
     getSmartFallback ".mgg1" = ".ogg" ∧ getSmartFallback ".mgga" = ".ogg" ∧
     getSmartFallback ".mggh" = ".ogg" ∧ getSmartFallback ".mggl" = ".ogg" ∧
     getSmartFallback ".mggm" = ".ogg" ∧
     getSmartFallback ".mflac" = ".flac" ∧ getSmartFallback ".mflac0" = ".flac" ∧
     getSmartFallback ".mflac1" = ".flac" ∧ getSmartFallback ".mflaca" = ".flac" ∧
     getSmartFallback ".mflach" = ".flac" ∧ getSmartFallback ".mflacl" = ".flac" ∧
     getSmartFallback ".mflacm" = ".flac" ∧
     getSmartFallback ".qmcflac" = ".flac" ∧ getSmartFallback ".qmcogg" = ".ogg") ∧
    (∀ e : String,
        e ∉ [".mgg", ".mgg0", ".mgg1", ".mgga", ".mggh", ".mggl", ".mggm",
             ".mflac", ".mflac0", ".mflac1", ".mflaca", ".mflach", ".mflacl", ".mflacm",
             ".qmcflac", ".qmcogg"] →
        getSmartFallback e = ".mp3") ∧
    AudioExtensionWithSmartFallback [0, 0, 0, 0, 0, 0, 0, 0] ".mgg" = ".ogg" := by
  refine ⟨?_, by decide, ?_, by decide⟩
  · intro header inputExt h
    simp [AudioExtensionWithSmartFallback, h]
  · intro e he
    simp only [List.mem_cons, List.not_mem_nil, or_false] at he
    push_neg at he
    obtain ⟨h1, h2, h3, h4, h5, h6, h7, h8, h9, h10, h11, h12, h13, h14, h15, h16⟩ := he
    simp [getSmartFallback, h1, h2, h3, h4, h5, h6, h7, h8, h9, h10, h11, h12, h13, h14,
      h15, h16]

/-- Witness for C7 instantiated at a zero head and the `.mflac0` extension. -/
theorem sniff_smart_fallback_witness :
    AudioExtensionWithSmartFallback [0, 0, 0, 0, 0, 0, 0, 0] ".mflac0" =
      getSmartFallback ".mflac0" :=
  sniff_smart_fallback.1 [0, 0, 0, 0, 0, 0, 0, 0] ".mflac0" (by decide)

/-! ## QMC tail-key discovery (algo/qmc/qmc.go) -/

/-- `bytes.TrimRight(data, "\x00")`: strip trailing NUL bytes. -/
def trimRightNul (l : List Nat) : List Nat :=
  (l.reverse.dropWhile (fun b => b = 0)).reverse

/-- The bytes of `"QTag"`. -/
def qtagBytes : List Nat := [81, 84, 97, 103]

/-- The bytes of `"STag"`. -/
def stagBytes : List Nat := [83, 84, 97, 103]

/-- The bytes of `"cex\x00"`. -/
def cexBytes : List Nat := [99, 101, 120, 0]

/-- `strings.Split` on a single separator byte (always at least one item). -/
def splitOnByte (sep : Nat) : List Nat → List (List Nat)
  | [] => [[]]
  | b :: rest =>
    match splitOnByte sep rest with
    | [] => [[]]
    | h :: t => if b = sep then [] :: h :: t else (b :: h) :: t

/-- `strconv.Atoi` on a byte string: optional sign, then decimal digits.
(Go additionally errors on 64-bit overflow, which the claims never reach.) -/
def goAtoi (s : List Nat) : Option Int :=
  let core : List Nat → Option Nat := fun digits =>
    if digits = [] ∨ ¬ digits.all (fun c => 48 ≤ c ∧ c ≤ 57) then none
    else some (digits.foldl (fun acc c => acc * 10 + (c - 48)) 0)
  match s with
  | [] => none
  | 43 :: rest => (core rest).map (Int.ofNat ·)
  | 45 :: rest => (core rest).map (fun n => -(Int.ofNat n))
  | _ => (core s).map (Int.ofNat ·)

/-- Outcome of `Decoder.searchKey`.  `rawKey`/`qtag` carry the byte string handed to
`deriveKey` (the key-derivation input; `deriveKey` itself is not part of src/) together
with the audio payload length `d.audioLen`. -/
inductive SearchKeyOutcome where
  | rawKey (derivationInput : List Nat) (audioLen : Nat)
  | qtag (derivationInput : List Nat) (audioLen : Nat) (songID rawMetaExtra2 : Int)
  | stagError
  | cexFooter
  | staticCipher (audioLen : Nat)
  | seekError
  | metaError
deriving DecidableEq, Repr

/-- `Decoder.readRawKey`: seek to `-(4+rawKeyLen)` from the end (an error when the file
is too short), set `audioLen`, read the raw key and strip trailing NULs. -/
def readRawKey (file : List Nat) (rawKeyLen : Nat) : SearchKeyOutcome :=
  if file.length < 4 + rawKeyLen then .seekError
  else
    let audioLen := file.length - (4 + rawKeyLen)
    let rawKeyData := (file.drop audioLen).take rawKeyLen
    .rawKey (trimRightNul rawKeyData) audioLen

/-- `Decoder.readRawMetaQTag`: big-endian meta length from the 4 bytes at `-8`,
comma-separated `{rawKey},{songID},{extra}` blob before it. -/
def readRawMetaQTag (file : List Nat) : SearchKeyOutcome :=
  if file.length < 8 then .seekError
  else
    let rawMetaLen := beUint32 ((file.drop (file.length - 8)).take 4)
    if file.length < 8 + rawMetaLen then .seekError
    else
      let audioLen := file.length - (8 + rawMetaLen)
      let rawMetaData := (file.drop audioLen).take rawMetaLen
      match splitOnByte 44 rawMetaData with
      | [k, s1, s2] =>
        match goAtoi s1, goAtoi s2 with
        | some songID, some extra => .qtag k audioLen songID extra
        | _, _ => .metaError
      | _ => .metaError

/-- `Decoder.searchKey` for a non-darwin build (the `runtime.GOOS == "darwin"` MMKV
branch is compiled out): inspect the last 4 bytes; `QTag`/`STag`/`cex\x00` footers are
handled first, otherwise the little-endian u32 is taken as a key length when it is in
`(0, 0xFFFF]`, and anything else falls back to the static cipher over the whole file.
The `cex` footer handling (`NewMusicExTag`) is not part of src/ and is left as the
bare `cexFooter` outcome. -/
def searchKey (file : List Nat) : SearchKeyOutcome :=
  if file.length < 4 then .seekError
  else
    let suffixBuf := file.drop (file.length - 4)
    if suffixBuf = qtagBytes then readRawMetaQTag file
    else if suffixBuf = stagBytes then .stagError
    else if suffixBuf = cexBytes then .cexFooter
    else
      let size := leUint32 suffixBuf
      if size ≤ 0xFFFF ∧ size ≠ 0 then readRawKey file size
      else .staticCipher file.length

/-- C5 counterexample: in the seed file read literally as described — tail =
little-endian `u32 = 4` FOLLOWED BY the key bytes `41 42 43 00` — the last four bytes
are the key bytes, whose little-endian value 0x00434241 exceeds 0xFFFF, so key search
falls back to the static cipher over the whole 14-byte file: the derivation input is
not `"ABC"` and the audio length is 14, not 14−8. -/
theorem qmc_tail_key_counterexample :
    searchKey [0, 0, 0, 0, 0, 0, 4, 0, 0, 0, 0x41, 0x42, 0x43, 0x00] =
      SearchKeyOutcome.staticCipher 14 ∧
    searchKey [0, 0, 0, 0, 0, 0, 4, 0, 0, 0, 0x41, 0x42, 0x43, 0x00] ≠
      SearchKeyOutcome.rawKey [0x41, 0x42, 0x43] 6 := by
  decide

/-- C5 amended: when the little-endian u32 `L` of the last 4 bytes satisfies
`0 < L ≤ 0xFFFF` (and the last 4 bytes are none of the `QTag`/`STag`/`cex` footers,
and the file is long enough), key search derives the cipher key from the `L` bytes
immediately preceding those 4 bytes with trailing NULs stripped, and the audio length
is the file size minus `4 + L`.  In particular, for the seed file whose tail is the
key bytes `41 42 43 00` followed by little-endian `u32 = 4`, the derivation input is
`"ABC"` and the audio length is file size − 8 (see the witness). -/
theorem qmc_tail_key (file : List Nat) (L : Nat)
    (h4 : 4 ≤ file.length)
    (hq : file.drop (file.length - 4) ≠ qtagBytes)
    (hs : file.drop (file.length - 4) ≠ stagBytes)
    (hc : file.drop (file.length - 4) ≠ cexBytes)
    (hL : L = leUint32 (file.drop (file.length - 4)))
    (hpos : 0 < L) (hmax : L ≤ 0xFFFF) (hfit : 4 + L ≤ file.length) :
    searchKey file =
      SearchKeyOutcome.rawKey
        (trimRightNul ((file.drop (file.length - (4 + L))).take L))
        (file.length - (4 + L)) := by
  unfold searchKey
  rw [if_neg (by omega)]
  simp only [hq, hs, hc, if_false]
  rw [if_pos ⟨by omega, by omega⟩]
  unfold readRawKey
  rw [if_neg (by omega)]
  rw [← hL]

/-- Witness for C5 at the corrected seed file `[6 ciphertext bytes][key 41 42 43 00][len 04 00 00 00]`. -/
theorem qmc_tail_key_witness :
    searchKey [0, 0, 0, 0, 0, 0, 0x41, 0x42, 0x43, 0x00, 4, 0, 0, 0] =
      SearchKeyOutcome.rawKey [0x41, 0x42, 0x43] 6 := by
  have h := qmc_tail_key [0, 0, 0, 0, 0, 0, 0x41, 0x42, 0x43, 0x00, 4, 0, 0, 0] 4
    (by decide) (by decide) (by decide) (by decide) (by decide)
    (by decide) (by decide) (by decide)
  rw [h]
  decide

/-! ## KGM/VPR validation (algo/kgm/kgm_v3.go) -/

/-- The parsed KGM header (`header` struct): crypto version, crypto slot, 16-byte
crypto key, audio offset.  `header.FromFile` itself is not part of src/; the claims
quantify over an already-parsed valid header. -/
structure KgmHeader where
  cryptoVersion : Nat
  cryptoSlot : Nat
  cryptoKey : List Nat
  audioOffset : Nat
deriving DecidableEq, Repr

/-- `kgmV3Slot2Key`: the only known crypto slot is 1. -/
def kgmV3Slot2Key (slot : Nat) : Option (List Nat) :=
  if slot = 1 then some [0x6C, 0x2C, 0x2F, 0x27] else none

/-- The error kinds produced by `Decoder.Validate`'s version dispatch. -/
inductive KgmValidateError where
  | unknownCryptoSlot
  | v5KeyUnavailable
  | deprecatedVersion
  | experimentalVersion
  | newerThanSupported
  | invalidVersion
deriving DecidableEq, Repr

/-- `kgm.Decoder.Validate` after the header has been parsed: the `switch` on
`d.header.CryptoVersion` of the source.  On success the decoder seeks the reader to
`d.header.AudioOffset`, which the model returns.  Version 3 succeeds exactly when the
crypto slot is known to `kgmV3Slot2Key` (the MD5-derived box contents play no role in
validation).  The version-5 branch is `Modelled from the spec:` `newKgmCryptoV5` is
absent from src/, and per §4.3.3 V5 needs the external key database, so an empty
database path fails. -/
def kgmValidate (h : KgmHeader) (kggDbPath : String) : Except KgmValidateError Nat :=
  if h.cryptoVersion = 3 then
    match kgmV3Slot2Key h.cryptoSlot with
    | none => .error .unknownCryptoSlot
    | some _ => .ok h.audioOffset
  else if h.cryptoVersion = 5 then
    if kggDbPath = "" then .error .v5KeyUnavailable else .ok h.audioOffset
  else if h.cryptoVersion = 1 ∨ h.cryptoVersion = 2 then .error .deprecatedVersion
  else if h.cryptoVersion = 4 then .error .experimentalVersion
  else if 5 < h.cryptoVersion then .error .newerThanSupported
  else .error .invalidVersion

/-- C4: the KGM version gate.  Versions 1 and 2 fail as deprecated, version 4 as
experimental, anything above 5 as newer-than-supported; version 3 with the known
crypto slot succeeds and positions the reader at the audio offset; and validation
only ever succeeds for versions 3 and 5. -/
theorem kgm_version_gate (h : KgmHeader) (db : String) :
    ((h.cryptoVersion = 1 ∨ h.cryptoVersion = 2) →
      kgmValidate h db = .error .deprecatedVersion) ∧
    (h.cryptoVersion = 4 → kgmValidate h db = .error .experimentalVersion) ∧
    (5 < h.cryptoVersion → kgmValidate h db = .error .newerThanSupported) ∧
    (h.cryptoVersion = 3 → h.cryptoSlot = 1 → kgmValidate h db = .ok h.audioOffset) ∧
    (∀ pos, kgmValidate h db = .ok pos →
      (h.cryptoVersion = 3 ∨ h.cryptoVersion = 5) ∧ pos = h.audioOffset) := by
  refine ⟨?_, ?_, ?_, ?_, ?_⟩
  · rintro (h1 | h2)
    · simp [kgmValidate, h1]
    · simp [kgmValidate, h2]
  · intro h4
    simp [kgmValidate, h4]
  · intro h5
    have h3' : h.cryptoVersion ≠ 3 := by omega
    have h5' : h.cryptoVersion ≠ 5 := by omega
    unfold kgmValidate
    rw [if_neg h3', if_neg h5', if_neg (by omega), if_neg (by omega), if_pos h5]
  · intro h3 hslot
    simp [kgmValidate, h3, hslot, kgmV3Slot2Key]
  · intro pos hok
    unfold kgmValidate at hok
    by_cases h3 : h.cryptoVersion = 3
    · rw [if_pos h3] at hok
      refine ⟨Or.inl h3, ?_⟩
      unfold kgmV3Slot2Key at hok
      by_cases hslot : h.cryptoSlot = 1
      · simp [hslot] at hok
        omega
      · simp [hslot] at hok
    · rw [if_neg h3] at hok
      by_cases h5 : h.cryptoVersion = 5
      · rw [if_pos h5] at hok
        refine ⟨Or.inr h5, ?_⟩
        by_cases hdb : db = ""
        · simp [hdb] at hok
        · simp [hdb] at hok
          omega
      · rw [if_neg h5] at hok
        by_cases h12 : h.cryptoVersion = 1 ∨ h.cryptoVersion = 2
        · simp [h12] at hok
        · rw [if_neg h12] at hok
          by_cases h4 : h.cryptoVersion = 4
          · simp [h4] at hok
          · rw [if_neg h4] at hok
            by_cases hgt : 5 < h.cryptoVersion
            · simp [hgt] at hok
            · simp [hgt] at hok

/-- Witness for C4 at the seed headers: version 4 is refused as experimental,
version 7 as newer than supported, and version 3 with slot 1 succeeds at its
audio offset 1024. -/
theorem kgm_version_gate_witness :
    kgmValidate ⟨4, 1, [], 1024⟩ "" = .error .experimentalVersion ∧
    kgmValidate ⟨7, 1, [], 1024⟩ "" = .error .newerThanSupported ∧
    kgmValidate ⟨3, 1, [], 1024⟩ "" = .ok 1024 :=
  ⟨(kgm_version_gate ⟨4, 1, [], 1024⟩ "").2.1 (by decide),
   (kgm_version_gate ⟨7, 1, [], 1024⟩ "").2.2.1 (by decide),
   (kgm_version_gate ⟨3, 1, [], 1024⟩ "").2.2.2.1 (by decide) (by decide)⟩

/-! ## Cipher kernels (algo/qmc/cipher_rc4.go, algo/kgm/kgm_v3.go) -/

/-- In-place swap `l[i], l[j] = l[j], l[i]` on a list. -/
def listSwap (l : List Nat) (i j : Nat) : List Nat :=
  (l.set i (l.getD j 0)).set j (l.getD i 0)

/-- `newRC4Cipher`'s KSA: box starts as `byte(i)` for `i < n` and is permuted by
`j = (j + S[i] + K[i mod n]) mod n; swap(S[i], S[j])`. -/
def ksa (key : List Nat) : List Nat :=
  let n := key.length
  ((List.range n).foldl
    (fun (st : List Nat × Nat) i =>
      let j := (st.2 + st.1.getD i 0 + key.getD (i % n) 0) % n
      (listSwap st.1 i j, j))
    ((List.range n).map (fun i => i % 256), 0)).1

/-- `rc4Cipher.getHashBase`: `hash` is a `uint32` starting at 1; zero key bytes are
skipped; multiplication wraps at 2^32; the walk stops when the product hits 0 or fails
to grow. -/
def hashBase : Nat → List Nat → Nat
  | h, [] => h
  | h, v :: rest =>
    if v = 0 then hashBase h rest
    else
      let next := (h * v) % 4294967296
      if next = 0 ∨ next ≤ h then h
      else hashBase next rest

/-- A constructed RC4 cipher (`rc4Cipher` struct): the derived key, the KSA box and the
hash base.  `c.n` of the source is `key.length`. -/
structure Rc4Cipher where
  key : List Nat
  box : List Nat
  hash : Nat
deriving DecidableEq, Repr

/-- `newRC4Cipher`: refuse an empty key, otherwise build box and hash. -/
def newRC4Cipher (key : List Nat) : Option Rc4Cipher :=
  if key.length = 0 then none
  else some { key := key, box := ksa key, hash := hashBase 1 key }

/-- `rc4Cipher.getSegmentSkip`.  The source computes
`int64(float64(c.hash) / float64((id+1)*seed) * 100.0) % int64(c.n)`; the float64
division-then-scale truncated to an integer is modelled as the exact integer
truncation `hash * 100 / ((id+1) * seed)` (the spec's design note directs 64-bit
arithmetic; a zero seed, a division by zero in Go, is modelled as 0 via Nat division).
The partition-invariance claim does not depend on the values this returns. -/
def segmentSkip (c : Rc4Cipher) (id : Nat) : Nat :=
  let n := c.key.length
  let seed := c.key.getD (id % n) 0
  c.hash * 100 / ((id + 1) * seed) % n

/-- PRGA state local to `encASegment`: the box copy and the indices `j`, `k`. -/
structure PrgaState where
  box : List Nat
  j : Nat
  k : Nat
deriving DecidableEq, Repr

/-- One PRGA iteration of `encASegment`'s loop body:
`j = (j+1) mod n; k = (box[j]+k) mod n; swap(box[j], box[k])`. -/
def prgaStep (n : Nat) (s : PrgaState) : PrgaState :=
  let j := (s.j + 1) % n
  let k := (s.box.getD j 0 + s.k) % n
  { box := listSwap s.box j k, j := j, k := k }

/-- The byte the loop XORs after a step: `box[(box[j]+box[k]) mod n]`. -/
def prgaOut (n : Nat) (s : PrgaState) : Nat :=
  s.box.getD ((s.box.getD s.j 0 + s.box.getD s.k 0) % n) 0

/-- The PRGA state after `m` steps from the cipher's initial box with `j = k = 0`. -/
def prgaIter (c : Rc4Cipher) (m : Nat) : PrgaState :=
  (prgaStep c.key.length)^[m] { box := c.box, j := 0, k := 0 }

/-- The output phase of `encASegment`: starting from a PRGA state, step once per byte
and XOR the emitted keystream byte. -/
def rc4SegXor (n : Nat) : PrgaState → List Nat → List Nat
  | _, [] => []
  | s, b :: rest =>
    let s' := prgaStep n s
    (b ^^^ prgaOut n s') :: rc4SegXor n s' rest

/-- `rc4Cipher.encASegment`: copy the box, discard
`(offset mod 5120) + skip(offset / 5120)` keystream steps, then XOR. -/
def encASegment (c : Rc4Cipher) (buf : List Nat) (offset : Nat) : List Nat :=
  rc4SegXor c.key.length
    (prgaIter c (offset % 5120 + segmentSkip c (offset / 5120))) buf

/-- `rc4Cipher.encFirstSegment`: `buf[i] ^= c.key[skip(offset+i)]`. -/
def encFirstSegment (c : Rc4Cipher) : List Nat → Nat → List Nat
  | [], _ => []
  | b :: rest, off =>
    (b ^^^ c.key.getD (segmentSkip c off) 0) :: encFirstSegment c rest (off + 1)

/-- `rc4Cipher.Decrypt`: the chunking control flow of the source — a first-segment
part (plaintext positions < 128), a partial segment up to the next 5120 boundary,
full 5120-byte segments, and the remainder. -/
def rc4Decrypt (c : Rc4Cipher) (src : List Nat) (offset : Nat) : List Nat :=
  if hs : src = [] then []
  else if h1 : offset < 128 then
    encFirstSegment c (src.take (min src.length (128 - offset))) offset ++
      rc4Decrypt c (src.drop (min src.length (128 - offset)))
        (offset + min src.length (128 - offset))
  else if h2 : offset % 5120 ≠ 0 then
    encASegment c (src.take (min src.length (5120 - offset % 5120))) offset ++
      rc4Decrypt c (src.drop (min src.length (5120 - offset % 5120)))
        (offset + min src.length (5120 - offset % 5120))
  else if h3 : 5120 < src.length then
    encASegment c (src.take 5120) offset ++ rc4Decrypt c (src.drop 5120) (offset + 5120)
  else
    encASegment c src offset
termination_by src.length
decreasing_by
  · have h0 : 0 < src.length := List.length_pos.mpr hs
    simp only [List.length_drop]
    omega
  · have h0 : 0 < src.length := List.length_pos.mpr hs
    have h5 : 0 < 5120 - offset % 5120 := by omega
    simp only [List.length_drop]
    omega
  · simp only [List.length_drop]
    omega

/-- XOR each byte with a position-dependent mask: the pointwise normal form the
chunked `Decrypt` is proved equal to. -/
def maskApply (f : Nat → Nat) : List Nat → Nat → List Nat
  | [], _ => []
  | b :: rest, off => (b ^^^ f off) :: maskApply f rest (off + 1)

/-- The per-position keystream byte of the RC4 kernel: key-table lookup inside the
128-byte first segment, PRGA output inside 5120-byte segments. -/
def rc4Mask (c : Rc4Cipher) (p : Nat) : Nat :=
  if p < 128 then c.key.getD (segmentSkip c p) 0
  else prgaOut c.key.length (prgaIter c (p % 5120 + segmentSkip c (p / 5120) + 1))

theorem maskApply_append (f : Nat → Nat) (a b : List Nat) (off : Nat) :
    maskApply f (a ++ b) off = maskApply f a off ++ maskApply f b (off + a.length) := by
  induction a generalizing off with
  | nil => simp [maskApply]
  | cons x xs ih =>
    simp only [List.cons_append, maskApply, List.length_cons, List.append_eq]
    rw [show off + (xs.length + 1) = off + 1 + xs.length by omega, ih]

theorem maskApply_congr (f g : Nat → Nat) (buf : List Nat) (o₁ o₂ : Nat)
    (h : ∀ i, i < buf.length → f (o₁ + i) = g (o₂ + i)) :
    maskApply f buf o₁ = maskApply g buf o₂ := by
  induction buf generalizing o₁ o₂ with
  | nil => rfl
  | cons b rest ih =>
    simp only [maskApply]
    have h0 := h 0 (by simp)
    simp only [Nat.add_zero] at h0
    rw [h0, ih (o₁ + 1) (o₂ + 1)]
    intro i hi
    have h1 := h (i + 1) (by simpa using Nat.succ_lt_succ hi)
    have e1 : o₁ + 1 + i = o₁ + (i + 1) := by omega
    have e2 : o₂ + 1 + i = o₂ + (i + 1) := by omega
    rw [e1, e2]
    exact h1

theorem rc4SegXor_iter (c : Rc4Cipher) (buf : List Nat) (m : Nat) :
    rc4SegXor c.key.length (prgaIter c m) buf =
      maskApply (fun t => prgaOut c.key.length (prgaIter c (t + 1))) buf m := by
  induction buf generalizing m with
  | nil => rfl
  | cons b rest ih =>
    simp only [rc4SegXor, maskApply]
    have hstep : prgaStep c.key.length (prgaIter c m) = prgaIter c (m + 1) := by
      simp [prgaIter, Function.iterate_succ_apply']
    rw [hstep, ih (m + 1)]

theorem encFirstSegment_eq_mask (c : Rc4Cipher) (buf : List Nat) (off : Nat)
    (h : off + buf.length ≤ 128) :
    encFirstSegment c buf off = maskApply (rc4Mask c) buf off := by
  induction buf generalizing off with
  | nil => rfl
  | cons b rest ih =>
    simp only [encFirstSegment, maskApply, List.length_cons] at h ⊢
    have hoff : off < 128 := by omega
    rw [rc4Mask, if_pos hoff, ih (off + 1) (by omega)]

theorem encASegment_eq_mask (c : Rc4Cipher) (buf : List Nat) (off : Nat)
    (h128 : 128 ≤ off) (hseg : off % 5120 + buf.length ≤ 5120) :
    encASegment c buf off = maskApply (rc4Mask c) buf off := by
  unfold encASegment
  rw [rc4SegXor_iter]
  apply maskApply_congr
  intro i hi
  show prgaOut c.key.length
      (prgaIter c (off % 5120 + segmentSkip c (off / 5120) + i + 1)) = rc4Mask c (off + i)
  have hmod : (off + i) % 5120 = off % 5120 + i := by omega
  have hdiv : (off + i) / 5120 = off / 5120 := by omega
  rw [rc4Mask, if_neg (by omega : ¬ off + i < 128), hmod, hdiv]
  have harg : off % 5120 + segmentSkip c (off / 5120) + i + 1 =
      off % 5120 + i + segmentSkip c (off / 5120) + 1 := by omega
  rw [harg]

theorem rc4Decrypt_eq_mask_aux (L : Nat) :
    ∀ (c : Rc4Cipher) (src : List Nat), src.length ≤ L →
      ∀ off, rc4Decrypt c src off = maskApply (rc4Mask c) src off := by
  induction L with
  | zero =>
    intro c src hlen off
    have hnil : src = [] := List.eq_nil_of_length_eq_zero (by omega)
    subst hnil
    simp [rc4Decrypt, maskApply]
  | succ n IH =>
    intro c src hlen off
    by_cases hs : src = []
    · subst hs
      simp [rc4Decrypt, maskApply]
    · have hpos : 0 < src.length := List.length_pos.mpr hs
      rw [rc4Decrypt, dif_neg hs]
      by_cases h1 : off < 128
      · rw [dif_pos h1]
        have hbs1 : 1 ≤ min src.length (128 - off) := by omega
        have hble : min src.length (128 - off) ≤ src.length := by omega
        have htk : (src.take (min src.length (128 - off))).length =
            min src.length (128 - off) := by
          simp [List.length_take]
        rw [encFirstSegment_eq_mask c _ off (by rw [htk]; omega)]
        rw [IH c (src.drop (min src.length (128 - off)))
          (by simp only [List.length_drop]; omega) (off + min src.length (128 - off))]
        conv_rhs => rw [← List.take_append_drop (min src.length (128 - off)) src]
        rw [maskApply_append, htk]
      · rw [dif_neg h1]
        by_cases h2 : off % 5120 ≠ 0
        · rw [dif_pos h2]
          have hm : off % 5120 < 5120 := Nat.mod_lt _ (by omega)
          have hbs1 : 1 ≤ min src.length (5120 - off % 5120) := by omega
          have hble : min src.length (5120 - off % 5120) ≤ src.length := by omega
          have htk : (src.take (min src.length (5120 - off % 5120))).length =
              min src.length (5120 - off % 5120) := by
            simp [List.length_take]
          rw [encASegment_eq_mask c _ off (by omega) (by rw [htk]; omega)]
          rw [IH c (src.drop (min src.length (5120 - off % 5120)))
            (by simp only [List.length_drop]; omega)
            (off + min src.length (5120 - off % 5120))]
          conv_rhs =>
            rw [← List.take_append_drop (min src.length (5120 - off % 5120)) src]
          rw [maskApply_append, htk]
        · rw [dif_neg h2]
          simp only [ne_eq, not_not] at h2
          by_cases h3 : 5120 < src.length
          · rw [dif_pos h3]
            have htk : (src.take 5120).length = 5120 := by
              simp [List.length_take]
              omega
            rw [encASegment_eq_mask c _ off (by omega) (by rw [htk]; omega)]
            rw [IH c (src.drop 5120) (by simp only [List.length_drop]; omega) (off + 5120)]
            conv_rhs => rw [← List.take_append_drop 5120 src]
            rw [maskApply_append, htk]
          · rw [dif_neg h3]
            exact encASegment_eq_mask c src off (by omega) (by omega)

/-- `rc4Cipher.Decrypt` is position-addressable: every byte is XORed with a pure
function of its plaintext position. -/
theorem rc4Decrypt_pointwise (c : Rc4Cipher) (src : List Nat) (off : Nat) :
    rc4Decrypt c src off = maskApply (rc4Mask c) src off :=
  rc4Decrypt_eq_mask_aux src.length c src le_rfl off

/-! ### KGM v3 kernel -/

/-- `xorCollapseUint32`: XOR of the four bytes of a `uint32`. -/
def xorCollapseUint32 (p : Nat) : Nat :=
  let q := p % 4294967296
  (q % 256) ^^^ (q / 256 % 256) ^^^ (q / 65536 % 256) ^^^ (q / 16777216 % 256)

/-- The `kgmCryptoV3` cipher: the two derived boxes.  (`newKgmCryptoV3` builds them
with `kugouMD5`; the kernel's behaviour is uniform in their contents, so the claims
quantify over arbitrary boxes.) -/
structure KgmV3Cipher where
  slotBox : List Nat
  fileBox : List Nat
deriving DecidableEq, Repr

/-- The per-byte transform of `decryptStandard`/`processBatchOptimized`:
`b ^= fileBox[pos mod |fileBox|]; b ^= b << 4; b ^= slotBox[pos mod |slotBox|];
b ^= xorCollapse(uint32(pos))`, with the `<< 4` truncated to a byte. -/
def kgmByte (d : KgmV3Cipher) (pos b : Nat) : Nat :=
  let b1 := b ^^^ d.fileBox.getD (pos % d.fileBox.length) 0
  let b2 := b1 ^^^ ((b1 <<< 4) % 256)
  let b3 := b2 ^^^ d.slotBox.getD (pos % d.slotBox.length) 0
  b3 ^^^ xorCollapseUint32 pos

/-- `kgmCryptoV3.decryptStandard`: apply `kgmByte` at consecutive positions. -/
def kgmDecryptStd (d : KgmV3Cipher) : List Nat → Nat → List Nat
  | [], _ => []
  | b :: rest, off => kgmByte d off b :: kgmDecryptStd d rest (off + 1)

/-- `kgmCryptoV3.processBatchOptimized`: batches of at most 8 bytes are processed
directly; larger batches run an 8-byte-unrolled loop over the aligned part and a
remainder loop.  All three of the source's loops apply the same per-byte transform at
consecutive positions, each modelled by the shared recursion `kgmDecryptStd`. -/
def kgmProcessBatch (d : KgmV3Cipher) (batch : List Nat) (baseOff : Nat) : List Nat :=
  if batch.length ≤ 8 then kgmDecryptStd d batch baseOff
  else
    let alignedEnd := batch.length / 8 * 8
    kgmDecryptStd d (batch.take alignedEnd) baseOff ++
      kgmDecryptStd d (batch.drop alignedEnd) (baseOff + alignedEnd)

/-- The `for start := 0; start < bufLen; start += batchSize` loop of `decryptSIMD`,
processing `b[start:min(start+batchSize, bufLen)]` at base offset `offset + start`.
(The `0 < bs` conjunct is a totality guard; the source calls this with 16 or 32.) -/
def kgmBatchLoop (d : KgmV3Cipher) (bs : Nat) (b : List Nat) (start off : Nat) :
    List Nat :=
  if h : start < b.length ∧ 0 < bs then
    kgmProcessBatch d ((b.drop start).take bs) (off + start) ++
      kgmBatchLoop d bs b (start + bs) off
  else []
termination_by b.length - start
decreasing_by
  omega

/-- `kgmCryptoV3.decryptSIMD` on the batch path: batch size 16 below 128 bytes,
else 32.  (On non-amd64 the source falls back to `decryptStandard`, which computes
the same bytes — see `kgmDecrypt_eq_std`.) -/
def kgmDecryptSIMD (d : KgmV3Cipher) (b : List Nat) (off : Nat) : List Nat :=
  let batchSize := if b.length < 128 then 16 else 32
  kgmBatchLoop d batchSize b 0 off

/-- `kgmCryptoV3.Decrypt`: buffers of at least 64 bytes take the SIMD path. -/
def kgmDecrypt (d : KgmV3Cipher) (b : List Nat) (off : Nat) : List Nat :=
  if 64 ≤ b.length then kgmDecryptSIMD d b off else kgmDecryptStd d b off

theorem kgmDecryptStd_append (d : KgmV3Cipher) (a b : List Nat) (off : Nat) :
    kgmDecryptStd d (a ++ b) off =
      kgmDecryptStd d a off ++ kgmDecryptStd d b (off + a.length) := by
  induction a generalizing off with
  | nil => simp [kgmDecryptStd]
  | cons x xs ih =>
    simp only [List.cons_append, kgmDecryptStd, List.length_cons, List.append_eq]
    rw [show off + (xs.length + 1) = off + 1 + xs.length by omega, ih]

theorem kgmProcessBatch_eq_std (d : KgmV3Cipher) (batch : List Nat) (baseOff : Nat) :
    kgmProcessBatch d batch baseOff = kgmDecryptStd d batch baseOff := by
  unfold kgmProcessBatch
  by_cases h : batch.length ≤ 8
  · rw [if_pos h]
  · rw [if_neg h]
    have htk : (batch.take (batch.length / 8 * 8)).length = batch.length / 8 * 8 := by
      simp only [List.length_take]
      omega
    conv_rhs => rw [← List.take_append_drop (batch.length / 8 * 8) batch]
    rw [kgmDecryptStd_append, htk]

theorem kgmBatchLoop_eq_std (d : KgmV3Cipher) (bs : Nat) (hbs : 0 < bs) :
    ∀ (fuel : Nat) (b : List Nat) (start off : Nat), b.length - start ≤ fuel →
      kgmBatchLoop d bs b start off = kgmDecryptStd d (b.drop start) (off + start) := by
  intro fuel
  induction fuel with
  | zero =>
    intro b start off hf
    rw [kgmBatchLoop, dif_neg (by omega)]
    have : (b.drop start) = [] := by
      apply List.eq_nil_of_length_eq_zero
      simp only [List.length_drop]
      omega
    rw [this]
    rfl
  | succ n IHf =>
    intro b start off hf
    by_cases h : start < b.length
    · rw [kgmBatchLoop, dif_pos ⟨h, hbs⟩]
      rw [IHf b (start + bs) off (by omega)]
      rw [kgmProcessBatch_eq_std]
      conv_rhs => rw [← List.take_append_drop bs (b.drop start)]
      rw [kgmDecryptStd_append]
      have hdd : (b.drop start).drop bs = b.drop (start + bs) := by
        rw [List.drop_drop]
        try congr 1
        try omega
      rw [hdd]
      congr 1
      by_cases hfit : start + bs ≤ b.length
      · have hlen : ((b.drop start).take bs).length = bs := by
          simp only [List.length_take, List.length_drop]
          omega
        rw [hlen]
        congr 1
        omega
      · have hnil : b.drop (start + bs) = [] := by
          apply List.eq_nil_of_length_eq_zero
          simp only [List.length_drop]
          omega
        rw [hnil]
        rfl
    · rw [kgmBatchLoop, dif_neg (by omega)]
      have hnil : (b.drop start) = [] := by
        apply List.eq_nil_of_length_eq_zero
        simp only [List.length_drop]
        omega
      rw [hnil]
      rfl

/-- Every path of `kgmCryptoV3.Decrypt` computes the standard per-byte transform. -/
theorem kgmDecrypt_eq_std (d : KgmV3Cipher) (b : List Nat) (off : Nat) :
    kgmDecrypt d b off = kgmDecryptStd d b off := by
  unfold kgmDecrypt kgmDecryptSIMD
  by_cases h : 64 ≤ b.length
  · rw [if_pos h]
    by_cases h128 : b.length < 128
    · rw [if_pos h128, kgmBatchLoop_eq_std d 16 (by omega) b.length b 0 off (by omega)]
      simp
    · rw [if_neg h128, kgmBatchLoop_eq_std d 32 (by omega) b.length b 0 off (by omega)]
      simp
  · rw [if_neg h]

/-- Decrypt a buffer chunk by chunk, passing each chunk the cumulative plaintext
offset of the bytes before it. -/
def chunkedApply (g : List Nat → Nat → List Nat) : List (List Nat) → Nat → List Nat
  | [], _ => []
  | ch :: rest, off => g ch off ++ chunkedApply g rest (off + ch.length)

/-- C2: partition invariance of the cipher kernels present in the source — the QMC
SegmentedRC4 kernel (`rc4Cipher.Decrypt`, including chunks that straddle its 128-byte
first segment and its 5120-byte segment boundaries) and the KGM v3 kernel
(`kgmCryptoV3.Decrypt`): decrypting any partition of a buffer into chunks of size ≥ 1
in order, passing each chunk the cumulative plaintext offset, is byte-identical to
decrypting the joined buffer in one call at the starting offset. -/
theorem cipher_partition_invariance (c : Rc4Cipher) (d : KgmV3Cipher)
    (chunks : List (List Nat)) (off : Nat)
    (hch : ∀ ch ∈ chunks, 1 ≤ ch.length) :
    chunkedApply (rc4Decrypt c) chunks off = rc4Decrypt c chunks.flatten off ∧
    chunkedApply (kgmDecrypt d) chunks off = kgmDecrypt d chunks.flatten off := by
  clear hch
  constructor
  · induction chunks generalizing off with
    | nil =>
      simp [chunkedApply, List.flatten, rc4Decrypt]
    | cons ch rest ih =>
      simp only [chunkedApply, List.flatten_cons]
      rw [ih (off + ch.length)]
      rw [rc4Decrypt_pointwise c ch off, rc4Decrypt_pointwise c rest.flatten,
        rc4Decrypt_pointwise c (ch ++ rest.flatten) off, maskApply_append]
  · induction chunks generalizing off with
    | nil =>
      show [] = kgmDecrypt d [] off
      rw [kgmDecrypt_eq_std]
      rfl
    | cons ch rest ih =>
      simp only [chunkedApply, List.flatten_cons]
      rw [ih (off + ch.length)]
      rw [kgmDecrypt_eq_std d ch off, kgmDecrypt_eq_std d rest.flatten,
        kgmDecrypt_eq_std d (ch ++ rest.flatten) off, kgmDecryptStd_append]

/-- Witness for C2 at a concrete RC4 cipher (key `[7, 0, 3]`), a concrete KGM v3
cipher, and the partition `[[1], [2, 3]]` of `[1, 2, 3]` at offset 0. -/
theorem cipher_partition_invariance_witness :
    chunkedApply (rc4Decrypt ⟨[7, 0, 3], ksa [7, 0, 3], hashBase 1 [7, 0, 3]⟩)
        [[1], [2, 3]] 0 =
      rc4Decrypt ⟨[7, 0, 3], ksa [7, 0, 3], hashBase 1 [7, 0, 3]⟩ [1, 2, 3] 0 ∧
    chunkedApply (kgmDecrypt ⟨[5, 6], [8, 9, 10]⟩) [[1], [2, 3]] 0 =
      kgmDecrypt ⟨[5, 6], [8, 9, 10]⟩ [1, 2, 3] 0 :=
  cipher_partition_invariance ⟨[7, 0, 3], ksa [7, 0, 3], hashBase 1 [7, 0, 3]⟩
    ⟨[5, 6], [8, 9, 10]⟩ [[1], [2, 3]] 0 (by decide)

/-! ## Batch scheduler (cmd/um/batch.go) -/

/-- `FileTask`: input path, optional output path, priority, file size.
`priority`/`file_size` are Go `int`/`int64`; 0 means "unset". -/
structure GoFileTask where
  inputPath : String
  outputPath : String
  priority : Int
  fileSize : Int
deriving DecidableEq, Repr, Inhabited

/-- `ProcessResult`: one entry of the batch response. -/
structure GoProcessResult where
  inputPath : String
  outputPath : String
  success : Bool
  errorMsg : String
  processTime : Int
deriving DecidableEq, Repr, Inhabited

/-- `BatchResponse` (the `total_time_ms` field is wall-clock time, out of model). -/
structure GoBatchResponse where
  results : List GoProcessResult
  totalFiles : Nat
  successCount : Nat
  failedCount : Nat
deriving DecidableEq, Repr, Inhabited

/-- `batchProcessor.calculateTaskPriorities`: when `FileSize` is 0 ask the filesystem
(`stat`, a parameter of the model; a failing stat leaves the size unchanged), then give
unset priorities 1 below 1 MiB and 2 otherwise. -/
def calculateTaskPriorities (stat : String → Option Int) (tasks : List GoFileTask) :
    List GoFileTask :=
  tasks.map fun t =>
    let size := if t.fileSize = 0 then
        match stat t.inputPath with
        | some s => s
        | none => t.fileSize
      else t.fileSize
    let pr := if t.priority = 0 then (if size < 1048576 then 1 else 2) else t.priority
    { t with fileSize := size, priority := pr }

/-- The comparison of `sortTasksByPriority`'s `sort.Slice` closure: by priority
(smaller first), ties by file size (smaller first). -/
def taskLess (a b : GoFileTask) : Bool :=
  if a.priority ≠ b.priority then a.priority < b.priority else a.fileSize < b.fileSize

/-- Insert a task behind every element it is not strictly less than. -/
def insertTask (t : GoFileTask) : List GoFileTask → List GoFileTask
  | [] => [t]
  | x :: xs => if taskLess t x then t :: x :: xs else x :: insertTask t xs

/-- `batchProcessor.sortTasksByPriority`, modelled as an insertion sort consistent
with the `sort.Slice` comparison.  Go's `sort.Slice` is unstable, so the order of
elements with equal `(priority, fileSize)` keys is unspecified; on inputs whose keys
are pairwise distinct — as in every concrete input used below — every sort consistent
with the comparison produces this same list. -/
def sortTasksByPriority : List GoFileTask → List GoFileTask
  | [] => []
  | t :: ts => insertTask t (sortTasksByPriority ts)

/-- `batchProcessor.processBatch`: priorities are computed and the task slice is
sorted IN PLACE; tasks are then sent to the workers tagged with their index in the
SORTED slice, and each result is stored at `response.Results[index]`.  Per-file
processing (`processFileTask` in simple mode, `performDecryption`+`performWrite` in
pipeline mode) does I/O and is abstracted as the parameter `proc`.  Because every
result is written to its own index and the counters are accumulated over all received
results, the response does not depend on goroutine completion order, so the model is
a plain map over the sorted tasks.  With 4 or more files the pipeline mode runs, whose
result-collection loop increments only `SuccessCount` (batch.go 510-517); the simple
mode (fewer than 4 files) increments `SuccessCount` or `FailedCount` per result
(batch.go 199-207). -/
def processBatchModel (proc : GoFileTask → GoProcessResult)
    (stat : String → Option Int) (files : List GoFileTask) : GoBatchResponse :=
  let sorted := sortTasksByPriority (calculateTaskPriorities stat files)
  let results := sorted.map proc
  if 4 ≤ files.length then
    { results := results
      totalFiles := files.length
      successCount := results.countP (·.success)
      failedCount := 0 }
  else
    { results := results
      totalFiles := files.length
      successCount := results.countP (·.success)
      failedCount := results.countP (fun r => !r.success) }

/-- C1 failing input, evaluated: a 10-file request (pipeline mode) whose first file is
the only large one (2 MiB) followed by nine small files of distinct sizes.  The
priority sort moves the large file last, and because task indices are assigned AFTER
the in-place sort, `results[0]` is the smallest small file and `results[9]` is the
large file: `results[i].input_path` does not equal `request.files[i].input_path`. -/
theorem batch_order_failing_input :
    (processBatchModel (fun t => ⟨t.inputPath, t.outputPath, true, "", 0⟩)
        (fun _ => none)
        [⟨"big.ncm", "", 0, 2097152⟩,
         ⟨"s1.ncm", "", 0, 1001⟩, ⟨"s2.ncm", "", 0, 1002⟩, ⟨"s3.ncm", "", 0, 1003⟩,
         ⟨"s4.ncm", "", 0, 1004⟩, ⟨"s5.ncm", "", 0, 1005⟩, ⟨"s6.ncm", "", 0, 1006⟩,
         ⟨"s7.ncm", "", 0, 1007⟩, ⟨"s8.ncm", "", 0, 1008⟩,
         ⟨"s9.ncm", "", 0, 1009⟩]).results.map (·.inputPath) =
      ["s1.ncm", "s2.ncm", "s3.ncm", "s4.ncm", "s5.ncm", "s6.ncm", "s7.ncm",
       "s8.ncm", "s9.ncm", "big.ncm"] ∧
    ((processBatchModel (fun t => ⟨t.inputPath, t.outputPath, true, "", 0⟩)
        (fun _ => none)
        [⟨"big.ncm", "", 0, 2097152⟩,
         ⟨"s1.ncm", "", 0, 1001⟩, ⟨"s2.ncm", "", 0, 1002⟩, ⟨"s3.ncm", "", 0, 1003⟩,
         ⟨"s4.ncm", "", 0, 1004⟩, ⟨"s5.ncm", "", 0, 1005⟩, ⟨"s6.ncm", "", 0, 1006⟩,
         ⟨"s7.ncm", "", 0, 1007⟩, ⟨"s8.ncm", "", 0, 1008⟩,
         ⟨"s9.ncm", "", 0, 1009⟩]).results.getD 0 default).inputPath ≠ "big.ncm" := by
  decide

theorem insertTask_length (t : GoFileTask) (l : List GoFileTask) :
    (insertTask t l).length = l.length + 1 := by
  induction l with
  | nil => rfl
  | cons x xs ih =>
    unfold insertTask
    by_cases h : taskLess t x
    · simp [h]
    · simp [h, ih]

theorem sortTasksByPriority_length (l : List GoFileTask) :
    (sortTasksByPriority l).length = l.length := by
  induction l with
  | nil => rfl
  | cons x xs ih => simp [sortTasksByPriority, insertTask_length, ih]

theorem countP_success_split (l : List GoProcessResult) :
    l.countP (fun r => r.success) + l.countP (fun r => !r.success) = l.length := by
  induction l with
  | nil => rfl
  | cons x xs ih =>
    by_cases h : x.success
    · simp [List.countP_cons, h]
      omega
    · simp [List.countP_cons, h]
      omega

/-- C10: with at least 4 files (pipeline mode) the response's `failed_count` is 0
however many files fail, and `success_count + failed_count` falls short of
`total_files` whenever any file fails; with fewer than 4 files (simple mode)
`failed_count` counts the failures. -/
theorem pipeline_failed_count (proc : GoFileTask → GoProcessResult)
    (stat : String → Option Int) (files : List GoFileTask) :
    (4 ≤ files.length →
      (processBatchModel proc stat files).failedCount = 0 ∧
      ((∃ r ∈ (processBatchModel proc stat files).results, r.success = false) →
        (processBatchModel proc stat files).successCount +
            (processBatchModel proc stat files).failedCount <
          (processBatchModel proc stat files).totalFiles)) ∧
    (files.length < 4 →
      (processBatchModel proc stat files).failedCount =
        ((processBatchModel proc stat files).results.countP (fun r => !r.success))) := by
  have hlen : ((sortTasksByPriority (calculateTaskPriorities stat files)).map proc).length
      = files.length := by
    rw [List.length_map, sortTasksByPriority_length]
    simp [calculateTaskPriorities]
  constructor
  · intro h4
    unfold processBatchModel
    rw [if_pos h4]
    refine ⟨rfl, ?_⟩
    rintro ⟨r, hr, hfail⟩
    simp only
    have hsplit := countP_success_split
      ((sortTasksByPriority (calculateTaskPriorities stat files)).map proc)
    have hpos : 0 < ((sortTasksByPriority (calculateTaskPriorities stat files)).map
        proc).countP (fun x => !x.success) := by
      rw [List.countP_pos_iff]
      exact ⟨r, by simpa using hr, by simp [hfail]⟩
    omega
  · intro hlt
    unfold processBatchModel
    rw [if_neg (by omega)]

/-- Witness for C10 at a concrete 4-file request whose files all fail. -/
theorem pipeline_failed_count_witness :
    (processBatchModel (fun t => ⟨t.inputPath, "", false, "boom", 0⟩) (fun _ => none)
        [⟨"a.ncm", "", 0, 1⟩, ⟨"b.ncm", "", 0, 2⟩, ⟨"c.ncm", "", 0, 3⟩,
         ⟨"d.ncm", "", 0, 4⟩]).failedCount = 0 ∧
    (processBatchModel (fun t => ⟨t.inputPath, "", false, "boom", 0⟩) (fun _ => none)
          [⟨"a.ncm", "", 0, 1⟩, ⟨"b.ncm", "", 0, 2⟩, ⟨"c.ncm", "", 0, 3⟩,
           ⟨"d.ncm", "", 0, 4⟩]).successCount +
        (processBatchModel (fun t => ⟨t.inputPath, "", false, "boom", 0⟩) (fun _ => none)
          [⟨"a.ncm", "", 0, 1⟩, ⟨"b.ncm", "", 0, 2⟩, ⟨"c.ncm", "", 0, 3⟩,
           ⟨"d.ncm", "", 0, 4⟩]).failedCount <
      (processBatchModel (fun t => ⟨t.inputPath, "", false, "boom", 0⟩) (fun _ => none)
          [⟨"a.ncm", "", 0, 1⟩, ⟨"b.ncm", "", 0, 2⟩, ⟨"c.ncm", "", 0, 3⟩,
           ⟨"d.ncm", "", 0, 4⟩]).totalFiles := by
  have h := (pipeline_failed_count (fun t => ⟨t.inputPath, "", false, "boom", 0⟩)
    (fun _ => none)
    [⟨"a.ncm", "", 0, 1⟩, ⟨"b.ncm", "", 0, 2⟩, ⟨"c.ncm", "", 0, 3⟩,
     ⟨"d.ncm", "", 0, 4⟩]).1 (by decide)
  exact ⟨h.1, h.2 (by decide)⟩

/-! ## Decoder registry (algo/qmc/qmc.go `init`, algo/kgm/kgm_v3.go `init`) -/

/-- The decoder families whose registrations the claims touch. -/
inductive DecoderKind where
  | qmc
  | kgm
  | ncm
  | kwm
  | tm
  | xm
deriving DecidableEq, Repr

/-- The extensions registered by `algo/qmc/qmc.go`'s `init`: the base list, then for
each of `mgg`/`mflac` the bare extension and the suffixes `0 1 a h l m` (and no
other suffix — in particular none of `2`..`9`). -/
def qmcRegisteredExts : List String :=
  ["qmc0", "qmc3", "qmc2", "qmc4", "qmc6", "qmc8", "qmcflac", "qmcogg", "tkm",
   "bkcmp3", "bkcm4a", "bkcflac", "bkcwav", "bkcape", "bkcogg", "bkcwma",
   "666c6163", "6d7033", "6f6767", "6d3461", "776176", "mmp4",
   "mgg", "mgg0", "mgg1", "mgga", "mggh", "mggl", "mggm",
   "mflac", "mflac0", "mflac1", "mflaca", "mflach", "mflacl", "mflacm"]

/-- The extensions registered by `algo/kgm/kgm_v3.go`'s `init`. -/
def kgmRegisteredExts : List String :=
  ["kgg", "kgm", "kgma", "vpr", "kgm.flac", "vpr.flac"]

/-- Modelled from the spec: the `init` registrations of the decoder packages absent
from src/ (NCM, KWM, TM, XM; spec §6.1). -/
def otherRegisteredExts : List String :=
  ["ncm", "kwm", "tm0", "tm2", "tm3", "tm6", "xm"]

/-- The full registry contents after startup (registration order across packages is
link-dependent and irrelevant to the claims). -/
def decoderRegistry : List (String × DecoderKind) :=
  qmcRegisteredExts.map (fun e => (e, DecoderKind.qmc)) ++
    kgmRegisteredExts.map (fun e => (e, DecoderKind.kgm)) ++
    otherRegisteredExts.map (fun e =>
      (e, if e = "ncm" then DecoderKind.ncm
          else if e = "kwm" then DecoderKind.kwm
          else if e = "xm" then DecoderKind.xm
          else DecoderKind.tm))

/-- ASCII model of Go's `strings.ToLower` (all registered suffixes and the paths the
claims use are ASCII). -/
def goToLower (s : String) : String :=
  String.mk (s.data.map fun c =>
    if 'A' ≤ c ∧ c ≤ 'Z' then Char.ofNat (c.toNat + 32) else c)

/-- Modelled from the spec: `common.GetDecoder` is absent from src/.  Per §4.1,
`resolve` selects every factory whose suffix equals the lowercased trailing extension
of the path, preferring the longest compound match. -/
def resolveCandidates (filename : String) : List (String × DecoderKind) :=
  let lower := goToLower filename
  let matching := decoderRegistry.filter fun e => ("." ++ e.1).data.isSuffixOf lower.data
  let maxLen := matching.foldl (fun m e => max m e.1.length) 0
  matching.filter fun e => e.1.length = maxLen

/-- C8 counterexample: no decoder is registered for `mgg2` (or `mflac7`): the suffix
loops of `qmc.go`'s `init` cover only `0 1 a h l m`, not `0`-`9`. -/
theorem qmc_ext_registration_counterexample :
    resolveCandidates "song.mgg2" = [] ∧ resolveCandidates "song.mflac7" = [] := by
  decide

/-- C8 amended: for every character c in `{0, 1, a, h, l, m}` the extensions `mgg`+c
and `mflac`+c, as well as bare `mgg` and `mflac`, are registered with a QMC decoder
factory at startup, so decoder lookup on a file bearing any of these extensions
returns exactly one candidate, the QMC factory.  (The suffixes `2`..`9` of the
original claim are not registered.) -/
theorem qmc_ext_registration :
    resolveCandidates "song.mgg" = [("mgg", DecoderKind.qmc)] ∧
    resolveCandidates "song.mgg0" = [("mgg0", DecoderKind.qmc)] ∧
    resolveCandidates "song.mgg1" = [("mgg1", DecoderKind.qmc)] ∧
    resolveCandidates "song.mgga" = [("mgga", DecoderKind.qmc)] ∧
    resolveCandidates "song.mggh" = [("mggh", DecoderKind.qmc)] ∧
    resolveCandidates "song.mggl" = [("mggl", DecoderKind.qmc)] ∧
    resolveCandidates "song.mggm" = [("mggm", DecoderKind.qmc)] ∧
    resolveCandidates "song.mflac" = [("mflac", DecoderKind.qmc)] ∧
    resolveCandidates "song.mflac0" = [("mflac0", DecoderKind.qmc)] ∧
    resolveCandidates "song.mflac1" = [("mflac1", DecoderKind.qmc)] ∧
    resolveCandidates "song.mflaca" = [("mflaca", DecoderKind.qmc)] ∧
    resolveCandidates "song.mflach" = [("mflach", DecoderKind.qmc)] ∧
    resolveCandidates "song.mflacl" = [("mflacl", DecoderKind.qmc)] ∧
    resolveCandidates "song.mflacm" = [("mflacm", DecoderKind.qmc)] := by
  decide

/-! ## Filename metadata parser (algo/common, `SmartParseFilenameMeta`) and the
output-name formatter (cmd/um/main.go).

Go `string`s are Lean `String`s; `for _, r := range s` iterates runes = `s.data`.
The Go `unicode` class predicates are modelled over the character ranges that the
parser distinguishes (ASCII, the CJK/kana/hangul/cyrillic blocks); the concrete
inputs of the theorems below are pure ASCII. -/

/-- `unicode.IsSpace` (the white-space runes it recognises up to U+00A0). -/
def goIsSpace (c : Char) : Bool :=
  c = ' ' ∨ c = '\t' ∨ c = '\n' ∨ c.toNat = 11 ∨ c.toNat = 12 ∨ c = '\r' ∨
    c.toNat = 0x85 ∨ c.toNat = 0xA0

/-- `unicode.IsUpper`, ASCII range. -/
def goIsUpper (c : Char) : Bool := 'A' ≤ c ∧ c ≤ 'Z'

/-- `unicode.IsDigit`, ASCII range. -/
def goIsDigit (c : Char) : Bool := '0' ≤ c ∧ c ≤ '9'

/-- `unicode.IsPunct`, ASCII range (category P; `$ + < = > ^` and the backquote,
`|`, `~` are symbols, not punctuation). -/
def goIsPunct (c : Char) : Bool :=
  (['!', '"', '#', '%', '&', '\'', '(', ')', '*', ',', '-', '.', '/', ':', ';',
    '?', '@', '[', '\\', ']', '_'] ++ [Char.ofNat 123, Char.ofNat 125]).contains c

/-- `unicode.Is(unicode.Han, r)`: the main Han blocks of Go's table. -/
def isHanChar (c : Char) : Bool :=
  (0x4E00 ≤ c.toNat ∧ c.toNat ≤ 0x9FFF) ∨ (0x3400 ≤ c.toNat ∧ c.toNat ≤ 0x4DBF) ∨
    (0xF900 ≤ c.toNat ∧ c.toNat ≤ 0xFAFF) ∨ (0x20000 ≤ c.toNat ∧ c.toNat ≤ 0x2A6DF)

/-- `strings.TrimSpace`. -/
def goTrimSpace (s : String) : String :=
  String.mk (((s.data.dropWhile goIsSpace).reverse.dropWhile goIsSpace).reverse)

/-- `strings.HasSuffix`. -/
def goHasSuffix (s suf : String) : Bool := suf.data.isSuffixOf s.data

/-- `strings.TrimSuffix`. -/
def goTrimSuffix (s suf : String) : String :=
  if goHasSuffix s suf then String.mk (s.data.take (s.data.length - suf.data.length))
  else s

/-- Substring test on character lists (`strings.Contains`). -/
def listContainsSub : List Char → List Char → Bool
  | [], sub => sub.isEmpty
  | l@(_ :: rest), sub => sub.isPrefixOf l || listContainsSub rest sub

/-- `strings.Contains`. -/
def goContains (s sub : String) : Bool := listContainsSub s.data sub.data

/-- `strings.Split` on a one-character separator (always at least one piece). -/
def splitCharList (sep : Char) : List Char → List (List Char)
  | [] => [[]]
  | c :: rest =>
    match splitCharList sep rest with
    | [] => [[]]
    | h :: t => if c = sep then [] :: h :: t else (c :: h) :: t

/-- `strings.Split` with a one-character separator, on `String`. -/
def goSplit (s : String) (sep : Char) : List String :=
  (splitCharList sep s.data).map String.mk

/-- Accumulator pass of `strings.FieldsFunc`: split into maximal runs of characters
not satisfying `p`, dropping empty runs. -/
def fieldsGo (p : Char → Bool) : List Char → List Char → List (List Char)
  | cur, [] => if cur.isEmpty then [] else [cur.reverse]
  | cur, c :: rest =>
    if p c then
      if cur.isEmpty then fieldsGo p [] rest
      else cur.reverse :: fieldsGo p [] rest
    else fieldsGo p (c :: cur) rest

/-- `strings.FieldsFunc`. -/
def goFieldsFunc (p : Char → Bool) (s : String) : List String :=
  (fieldsGo p [] s.data).map String.mk

/-- `strings.Fields`. -/
def goFields (s : String) : List String := goFieldsFunc goIsSpace s

/-- ASCII model of `strings.ToUpper`. -/
def goToUpper (s : String) : String :=
  String.mk (s.data.map fun c =>
    if 'a' ≤ c ∧ c ≤ 'z' then Char.ofNat (c.toNat - 32) else c)

/-- `strings.ContainsAny(s, chars)`. -/
def goContainsAny (s : String) (chars : List Char) : Bool :=
  s.data.any (fun c => chars.contains c)

/-- `path.Ext`: the suffix from the final dot of the final slash-separated element;
empty when there is no dot. -/
def pathExt (s : String) : String :=
  let upToSlash := s.data.reverse.takeWhile (fun c => c ≠ '/')
  match upToSlash.findIdx? (fun c => c = '.') with
  | none => ""
  | some i => String.mk ((upToSlash.take (i + 1)).reverse)

/-- `songKeywords` of the source (multilingual song-qualifier keywords). -/
def songKeywords : List String :=
  ["Live", "live", "LIVE", "Remix", "remix", "REMIX", "Cover", "cover", "COVER",
   "Acoustic", "acoustic", "ACOUSTIC", "Instrumental", "instrumental", "INSTRUMENTAL",
   "Demo", "demo", "DEMO", "Version", "version", "VERSION", "Mix", "mix", "MIX",
   "Remaster", "remaster", "REMASTER", "Extended", "extended", "EXTENDED",
   "Radio", "radio", "RADIO", "Edit", "edit", "EDIT",
   "现场", "翻唱", "伴奏", "纯音乐", "演奏版", "重制版", "混音版",
   "电台版", "完整版", "精选版", "特别版", "原声版",
   "ライブ", "リミックス", "カバー", "アコースティック", "インストゥルメンタル",
   "デモ", "バージョン", "ミックス", "リマスター",
   "라이브", "리믹스", "커버", "어쿠스틱", "인스트루멘탈",
   "데모", "버전", "믹스", "리마스터"]

/-- `qualitySuffixes` of the source. -/
def qualitySuffixes : List String :=
  ["_hires", "_HIRES", "_HiRes", "_live", "_LIVE", "_Live",
   "_lossless", "_LOSSLESS", "_Lossless", "_flac", "_FLAC", "_Flac",
   "_dsd", "_DSD", "_Dsd", "_24bit", "_24BIT", "_24Bit",
   "_96khz", "_96KHZ", "_96kHz", "_192khz", "_192KHZ", "_192kHz",
   "_studio", "_STUDIO", "_Studio", "_master", "_MASTER", "_Master",
   "_remaster", "_REMASTER", "_Remaster", "_original", "_ORIGINAL", "_Original",
   "_deluxe", "_DELUXE", "_Deluxe", "_special", "_SPECIAL", "_Special",
   "_edition", "_EDITION", "_Edition", "_version", "_VERSION", "_Version"]

/-- `commonChineseSurnames` of the source (duplicates kept as written). -/
def commonChineseSurnames : List String :=
  ["王", "李", "张", "刘", "陈", "杨", "黄", "赵", "周", "吴",
   "徐", "孙", "朱", "马", "胡", "郭", "林", "何", "高", "梁",
   "郑", "罗", "宋", "谢", "唐", "韩", "曹", "许", "邓", "萧",
   "蒋", "沈", "韩", "杨", "朱", "秦", "尤", "许", "何", "吕",
   "施", "张", "孔", "曹", "严", "华", "金", "魏", "陶", "姜"]

/-- `commonJapaneseSurnames` of the source. -/
def commonJapaneseSurnames : List String :=
  ["田", "中", "佐", "藤", "山", "木", "村", "井", "上", "野",
   "川", "松", "本", "小", "林", "高", "橋", "渡", "辺", "伊",
   "加", "藤", "森", "石", "田", "前", "田", "近", "藤", "坂"]

/-- `commonKoreanSurnames` of the source. -/
def commonKoreanSurnames : List String :=
  ["김", "이", "박", "최", "정", "강", "조", "윤", "장", "임",
   "한", "오", "서", "신", "권", "황", "안", "송", "류", "전",
   "홍", "고", "문", "양", "손", "배", "조", "백", "허", "유",
   "노", "심", "원", "민", "성", "곽", "변", "남", "진", "어",
   "엄", "채", "원", "천", "방", "공", "강", "현", "함", "변",
   "염", "양", "변", "여", "추", "노", "도", "소", "신", "석",
   "선", "설", "마", "길", "주", "연", "방", "위", "표", "명",
   "기", "반", "왕", "금", "옥", "육", "인", "맹", "제", "모",
   "장", "남", "탁", "국", "여", "진", "어", "은", "편", "구",
   "용", "구", "갈", "등", "정", "좌", "승", "사", "마", "서",
   "싸"]

/-- `containsSongKeywords`. -/
def containsSongKeywords (s : String) : Bool :=
  songKeywords.any (fun k => goContains s k)

/-- `containsNumbers`. -/
def containsNumbers (s : String) : Bool :=
  s.data.any (fun c => '0' ≤ c ∧ c ≤ '9')

/-- `containsSpecialChars`: ASCII and fullwidth brackets. -/
def containsSpecialChars (s : String) : Bool :=
  (["(", ")", "[", "]", String.mk [Char.ofNat 123], String.mk [Char.ofNat 125],
    "（", "）", "【", "】"]).any (fun ch => goContains s ch)

/-- `isChinese`: more than half of the non-space characters are Han.  (The float
ratio test `x/y > 0.5` is the exact rational comparison `2x > y`.) -/
def isChinese (s : String) : Bool :=
  let total := (s.data.filter (fun c => !goIsSpace c)).length
  let ch := (s.data.filter isHanChar).length
  total > 0 && 2 * ch > total

/-- `isEnglish`: more than half of the non-space characters are ASCII letters. -/
def isEnglish (s : String) : Bool :=
  let total := (s.data.filter (fun c => !goIsSpace c)).length
  let en := (s.data.filter
    (fun c => ('a' ≤ c ∧ c ≤ 'z') ∨ ('A' ≤ c ∧ c ≤ 'Z'))).length
  total > 0 && 2 * en > total

/-- `isCapitalized`: every whitespace-separated word starts with an upper-case rune,
and there is at least one word. -/
def isCapitalized (s : String) : Bool :=
  if s.data.isEmpty then false
  else
    let words := goFields s
    (!words.isEmpty) && words.all (fun w => w.data.isEmpty || goIsUpper (w.data.headD ' '))

/-- `hasCommonChineseSurname`: the first rune is a listed surname. -/
def hasCommonChineseSurname (name : String) : Bool :=
  match name.data with
  | [] => false
  | c :: _ => commonChineseSurnames.contains (String.mk [c])

/-- One pass of `removeQualitySuffix`'s inner loop: strip the first listed suffix
that matches (then trim), or return the string unchanged. -/
def stripOneQuality (s : String) : String :=
  match qualitySuffixes.find? (fun suf => goHasSuffix s suf) with
  | some suf => goTrimSpace (goTrimSuffix s suf)
  | none => s

/-- The outer fixpoint loop of `removeQualitySuffix`, fuelled by the string length:
every successful strip removes at least one character (all listed suffixes are
nonempty and trimming only shortens), so the fuel always reaches the fixpoint. -/
def removeQualityAux : Nat → String → String
  | 0, s => s
  | fuel + 1, s =>
    let s' := stripOneQuality s
    if s' = s then s else removeQualityAux fuel s'

/-- `removeQualitySuffix`. -/
def removeQualitySuffix (s : String) : String :=
  removeQualityAux s.data.length s

/-- `LanguageType` of the source. -/
inductive LanguageType where
  | unknown
  | chinese
  | english
  | japanese
  | korean
  | russian
  | mixed
deriving DecidableEq, Repr

/-- `detectLanguage`: count characters per script (skipping spaces, punctuation and
digits), report `mixed` when at least two scripts exceed 20%, a single script when it
exceeds 50%, otherwise the largest share (in the order Chinese, English, Japanese,
Korean, Russian, each replacing only on a strictly larger count), `unknown` when even
that share is below 30%.  All float ratio tests are the exact cross-multiplied
comparisons over the shared denominator. -/
def detectLanguage (s : String) : LanguageType :=
  if s = "" then .unknown
  else
    let cs := s.data.filter (fun c => !(goIsSpace c || goIsPunct c || goIsDigit c))
    let total := cs.length
    let ch := (cs.filter isHanChar).length
    let en := (cs.filter
      (fun c => ('a' ≤ c ∧ c ≤ 'z') ∨ ('A' ≤ c ∧ c ≤ 'Z'))).length
    let ja := (cs.filter (fun c =>
      (0x3040 ≤ c.toNat ∧ c.toNat ≤ 0x309F) ∨
        (0x30A0 ≤ c.toNat ∧ c.toNat ≤ 0x30FF))).length
    let ko := (cs.filter (fun c => 0xAC00 ≤ c.toNat ∧ c.toNat ≤ 0xD7AF)).length
    let ru := (cs.filter (fun c =>
      (0x0400 ≤ c.toNat ∧ c.toNat ≤ 0x04FF) ∨
        (0x0500 ≤ c.toNat ∧ c.toNat ≤ 0x052F))).length
    if total = 0 then .unknown
    else
      let over20 : Nat :=
        (if 5 * ch > total then 1 else 0) + (if 5 * en > total then 1 else 0) +
          (if 5 * ja > total then 1 else 0) + (if 5 * ko > total then 1 else 0) +
          (if 5 * ru > total then 1 else 0)
      if over20 > 1 then .mixed
      else if 2 * ch > total then .chinese
      else if 2 * en > total then .english
      else if 2 * ja > total then .japanese
      else if 2 * ko > total then .korean
      else if 2 * ru > total then .russian
      else
        let m1 : Nat × LanguageType := (ch, .chinese)
        let m2 := if en > m1.1 then (en, LanguageType.english) else m1
        let m3 := if ja > m2.1 then (ja, LanguageType.japanese) else m2
        let m4 := if ko > m3.1 then (ko, LanguageType.korean) else m3
        let m5 := if ru > m4.1 then (ru, LanguageType.russian) else m4
        if 10 * m5.1 < 3 * total then .unknown else m5.2

/-- `getSongTitlePatterns`: per-language keyword weights (Go map, iterated only to
sum matched weights, so the list order is irrelevant). -/
def getSongTitlePatterns (lang : LanguageType) : List (String × Nat) :=
  match lang with
  | .chinese =>
    [("北京", 3), ("上海", 3), ("广州", 3), ("深圳", 3), ("杭州", 3),
     ("南京", 3), ("西安", 3), ("成都", 3), ("重庆", 3), ("天津", 3),
     ("香港", 3), ("台北", 3), ("澳门", 3),
     ("爱情", 4), ("思念", 4), ("回忆", 4), ("梦想", 4), ("青春", 4),
     ("孤独", 4), ("寂寞", 4), ("温柔", 4), ("浪漫", 4), ("甜蜜", 4),
     ("心痛", 4), ("眼泪", 4), ("微笑", 4), ("拥抱", 4), ("告别", 4),
     ("昨天", 3), ("今天", 3), ("明天", 3), ("永远", 3), ("瞬间", 3),
     ("春天", 3), ("夏天", 3), ("秋天", 3), ("冬天", 3), ("夜晚", 3),
     ("黎明", 3), ("黄昏", 3), ("午夜", 3),
     ("红色", 3), ("蓝色", 3), ("白色", 3), ("黑色", 3), ("绿色", 3),
     ("紫色", 3), ("黄色", 3), ("粉色", 3), ("灰色", 3),
     ("月亮", 3), ("太阳", 3), ("星星", 3), ("海洋", 3), ("山峰", 3),
     ("花朵", 3), ("树叶", 3), ("雨水", 3), ("雪花", 3), ("风景", 3),
     ("自由", 3), ("希望", 3), ("信念", 3), ("勇气", 3), ("力量", 3),
     ("奇迹", 3), ("命运", 3), ("缘分", 3), ("幸福", 3), ("快乐", 3)]
  | .english =>
    [("love", 4), ("heart", 4), ("dream", 4), ("hope", 4), ("life", 4),
     ("time", 4), ("night", 4), ("day", 4), ("light", 4), ("dark", 4),
     ("soul", 4), ("mind", 4), ("eyes", 4), ("smile", 4), ("tears", 4),
     ("kiss", 4), ("touch", 4), ("hold", 4), ("feel", 4), ("miss", 4),
     ("dance", 3), ("sing", 3), ("fly", 3), ("run", 3), ("walk", 3),
     ("fall", 3), ("rise", 3), ("shine", 3), ("burn", 3), ("break", 3),
     ("moon", 3), ("sun", 3), ("star", 3), ("sky", 3), ("sea", 3),
     ("fire", 3), ("water", 3), ("wind", 3), ("rain", 3), ("snow", 3),
     ("freedom", 3), ("peace", 3), ("power", 3), ("magic", 3), ("wonder", 3),
     ("miracle", 3), ("destiny", 3), ("forever", 3), ("always", 3), ("never", 3)]
  | .japanese =>
    [("愛", 4), ("恋", 4), ("心", 4), ("夢", 4), ("希望", 4),
     ("涙", 4), ("笑顔", 4), ("想い", 4), ("気持ち", 4), ("感情", 4),
     ("今日", 3), ("明日", 3), ("昨日", 3), ("永遠", 3), ("瞬間", 3),
     ("春", 3), ("夏", 3), ("秋", 3), ("冬", 3), ("夜", 3),
     ("月", 3), ("太陽", 3), ("星", 3), ("海", 3), ("空", 3),
     ("花", 3), ("桜", 3), ("雨", 3), ("雪", 3), ("風", 3),
     ("自由", 3), ("平和", 3), ("力", 3), ("魔法", 3), ("奇跡", 3)]
  | .korean =>
    [("사랑", 4), ("마음", 4), ("꿈", 4), ("희망", 4), ("기억", 4),
     ("눈물", 4), ("미소", 4), ("그리움", 4), ("행복", 4), ("슬픔", 4),
     ("오늘", 3), ("내일", 3), ("어제", 3), ("영원", 3), ("순간", 3),
     ("봄", 3), ("여름", 3), ("가을", 3), ("겨울", 3), ("밤", 3),
     ("달", 3), ("해", 3), ("별", 3), ("바다", 3), ("하늘", 3),
     ("꽃", 3), ("나무", 3), ("비", 3), ("눈", 3), ("바람", 3),
     ("자유", 3), ("평화", 3), ("힘", 3), ("기적", 3), ("운명", 3)]
  | _ => []

/-- `getArtistNamePatterns`: per-language artist-name weights. -/
def getArtistNamePatterns (lang : LanguageType) : List (String × Nat) :=
  match lang with
  | .chinese =>
    [("组合", 3), ("乐队", 3), ("乐团", 3), ("合唱团", 3), ("工作室", 3),
     ("音乐", 2), ("歌手", 2), ("艺人", 2), ("明星", 2),
     ("小", 2), ("大", 2), ("老", 2), ("阿", 2)]
  | .english =>
    [("band", 3), ("group", 3), ("crew", 3), ("collective", 3),
     ("orchestra", 3), ("ensemble", 3), ("choir", 3), ("quartet", 3),
     ("trio", 3), ("duo", 3), ("brothers", 3), ("sisters", 3),
     ("mc", 2), ("dj", 2), ("dr", 2), ("mr", 2), ("ms", 2),
     ("the", 1), ("and", 1), ("of", 1), ("for", 1)]
  | .japanese =>
    [("バンド", 3), ("グループ", 3), ("ユニット", 3), ("チーム", 3),
     ("楽団", 3), ("合唱団", 3), ("オーケストラ", 3),
     ("さん", 2), ("ちゃん", 2), ("くん", 2), ("様", 2)]
  | .korean =>
    [("밴드", 3), ("그룹", 3), ("팀", 3), ("유닛", 3),
     ("오케스트라", 3), ("합창단", 3), ("앙상블", 3),
     ("씨", 2), ("님", 2), ("군", 2), ("양", 2)]
  | _ => []

/-- `hasCommonSurnameByLanguage`. -/
def hasCommonSurnameByLanguage (name : String) (lang : LanguageType) : Bool :=
  match name.data with
  | [] => false
  | c :: _ =>
    match lang with
    | .chinese => commonChineseSurnames.contains (String.mk [c])
    | .japanese => commonJapaneseSurnames.contains (String.mk [c])
    | .korean => commonKoreanSurnames.contains (String.mk [c])
    | _ => false

/-- Weight sum of an artist-pattern map over a text (`for pattern, weight := range
patterns` summing matched weights; map iteration order does not affect a sum).
Scores throughout are modelled in half-point units — every Go `float64` weight `w`
becomes the natural number `2w` — because every weight in the source is a multiple
of 0.5; all score sums and comparisons are exact and invariant under this scaling. -/
def patternScore (patterns : List (String × Nat)) (text : String) : Nat :=
  patterns.foldl (fun acc p => if goContains text p.1 then acc + 2 * p.2 else acc) 0

/-- Weight sum of a song-pattern map (half-point units): a pattern matches in the
lowercased or the original text. -/
def songPatternScore (patterns : List (String × Nat)) (lowerText cleanText : String) :
    Nat :=
  patterns.foldl
    (fun acc p =>
      if goContains lowerText p.1 ∨ goContains cleanText p.1 then acc + 2 * p.2
      else acc) 0

/-- `getLanguageSpecificScore`.  Go's `float64` score is a sum of literal weights,
each a multiple of 0.5 and exact in `float64`; the model counts half-points in `ℕ`
(weight `w` ↦ `2w`), preserving every comparison. -/
def getLanguageSpecificScore (text : String) (lang : LanguageType) (asArtist : Bool) :
    Nat :=
  if text = "" then 0
  else
    let cleanText := removeQualitySuffix text
    let runeCount := cleanText.data.length
    if asArtist then
      (match lang with
       | .chinese =>
         (if 2 ≤ runeCount ∧ runeCount ≤ 4 then 6 else 0) +
           (if hasCommonSurnameByLanguage cleanText lang then 8 else 0) +
           patternScore (getArtistNamePatterns lang) cleanText
       | .english =>
         (if isCapitalized cleanText then 4 else 0) +
           (if goContains cleanText " " ∧ ¬containsSongKeywords cleanText then 6
            else 0) +
           (if runeCount ≤ 15 then 2 else 0) +
           (if runeCount ≤ 4 ∧ isCapitalized cleanText ∧ ¬goContains cleanText " " then
              (if containsNumbers cleanText ∨ goContainsAny cleanText ['/', '\\', '&']
               then 8 else 0) +
                (if goToUpper cleanText = cleanText then 6 else 0)
            else 0) +
           patternScore (getArtistNamePatterns lang) (goToLower cleanText)
       | .japanese =>
         (if 2 ≤ runeCount ∧ runeCount ≤ 6 then 4 else 0) +
           (if hasCommonSurnameByLanguage cleanText lang then 6 else 0) +
           patternScore (getArtistNamePatterns lang) cleanText
       | .korean =>
         (if 2 ≤ runeCount ∧ runeCount ≤ 5 then 4 else 0) +
           (if hasCommonSurnameByLanguage cleanText lang then 6 else 0) +
           patternScore (getArtistNamePatterns lang) cleanText
       | _ =>
         (if isCapitalized cleanText then 2 else 0) +
           (if 2 ≤ runeCount ∧ runeCount ≤ 20 then 2 else 0)) +
        (if ¬containsSpecialChars cleanText then 2 else 0) +
        (if ¬containsSongKeywords cleanText then 2 else 0)
    else
      (if containsSpecialChars cleanText then 8 else 0) +
        (if containsSongKeywords cleanText then 10 else 0) +
        (if containsNumbers cleanText then 4 else 0) +
        (if 6 < runeCount then 4 else 0) +
        (if 10 < runeCount then 2 else 0) +
        songPatternScore (getSongTitlePatterns lang) (goToLower cleanText) cleanText +
        (match lang with
         | .chinese => if 4 < runeCount then 4 else 0
         | .japanese => if 3 < runeCount then 3 else 0
         | .korean => if 3 < runeCount then 3 else 0
         | _ => 0)

/-- `analyzeByLanguage`: clean both parts, detect their languages, score each part
as artist and as song, compare the two assignments, and report the winner together
with the exact confidence fraction `winner / (winner + loser)` as the pair
`(winner, winner + loser)` in half-point units.  (The use site's `confidence > 0.7`
becomes the exact cross-multiplied test `10 * winner > 7 * total`; a zero total is a
0/0 division whose Go value NaN fails that test exactly as the pair (0, 0) does.) -/
def analyzeByLanguage (part1 part2 : String) : Bool × Nat × Nat :=
  let cleanPart1 := removeQualitySuffix part1
  let cleanPart2 := removeQualitySuffix part2
  let lang1 := detectLanguage cleanPart1
  let lang2 := detectLanguage cleanPart2
  let artistScore1 := getLanguageSpecificScore cleanPart1 lang1 true
  let songScore1 := getLanguageSpecificScore cleanPart1 lang1 false
  let artistScore2 := getLanguageSpecificScore cleanPart2 lang2 true
  let songScore2 := getLanguageSpecificScore cleanPart2 lang2 false
  let artistTitleScore := artistScore1 + songScore2
  let titleArtistScore := songScore1 + artistScore2
  if artistTitleScore > titleArtistScore then
    (true, artistTitleScore, artistTitleScore + titleArtistScore)
  else
    (false, titleArtistScore, artistTitleScore + titleArtistScore)

/-- The local `songWords` slice of `quickIdentifyArtist`. -/
def quickSongWords : List String :=
  ["Story", "Song", "Dream", "Night", "Day", "Love", "Heart", "Life", "Time", "World"]

/-- `quickIdentifyArtist`.  Word lengths are Go byte lengths. -/
def quickIdentifyArtist (name : String) : Bool :=
  if name = "" then false
  else if isChinese name ∧ 2 ≤ name.data.length ∧ name.data.length ≤ 4 ∧
      hasCommonChineseSurname name then true
  else if isEnglish name ∧ isCapitalized name ∧ goContains name " " ∧
      ¬containsSongKeywords name then
    let words := goFields name
    if words.length = 2 then
      let word1 := words.headD ""
      let word2 := words.getD 1 ""
      if quickSongWords.contains word2 then false
      else if word1.utf8ByteSize ≤ 5 ∧ word2.utf8ByteSize ≤ 5 then false
      else true
    else true
  else false

/-- `isLikelyArtistName` (integer score; `len(name)` is the byte length). -/
def isLikelyArtistName (name : String) : Bool :=
  if name = "" then false
  else
    let score : Nat :=
      (if isChinese name then
         (if 2 ≤ name.data.length ∧ name.data.length ≤ 4 then 3 else 0) +
           (if hasCommonChineseSurname name then 4 else 0)
       else 0) +
      (if isEnglish name then
         (if isCapitalized name then 2 else 0) +
           (if goContains name " " ∧ ¬containsSongKeywords name then 3 else 0) +
           (if name.utf8ByteSize ≤ 15 then 1 else 0) +
           (if ¬goContains name " " ∧ isCapitalized name ∧ name.utf8ByteSize ≤ 10
            then 1 else 0)
       else 0) +
      (if ¬containsSpecialChars name then 1 else 0)
    4 ≤ score

/-- `isLikelySongTitle` (integer score; lengths are rune counts). -/
def isLikelySongTitle (title : String) : Bool :=
  if title = "" then false
  else
    let runeCount := title.data.length
    let score : Nat :=
      (if containsSpecialChars title then 4 else 0) +
        (if containsSongKeywords title then 5 else 0) +
        (if containsNumbers title then 2 else 0) +
        (if 6 < runeCount then 2 else 0) +
        (if 10 < runeCount then 1 else 0) +
        (if isChinese title ∧ 4 < runeCount then 2 else 0)
    3 ≤ score

/-- `filenameMeta` of the source: artists, title, album, detected original format. -/
structure FilenameMeta where
  artists : List String
  title : String
  album : String
  originalFormat : String
deriving DecidableEq, Repr, Inhabited

/-- The artist-splitting pass at the end of `SmartParseFilenameMeta`: each artist is
split on `,`/`_` (`strings.FieldsFunc`) and the pieces trimmed. -/
def splitArtists (artists : List String) : List String :=
  artists.foldr
    (fun a acc =>
      ((goFieldsFunc (fun r => r = ',' ∨ r = '_') a).map goTrimSpace) ++ acc) []

/-- `common.SmartParseFilenameMeta`: strip the extension and whitespace, keep only
the part before the first `_`, split at `-`, classify the two sides (high-confidence
language analysis, then the quick surname path, then the likely-artist/likely-title
heuristics, then the analysis result as tie-breaker), and split multiple artists. -/
def SmartParseFilenameMeta (filename : String) : FilenameMeta :=
  if filename = "" then ⟨[], "", "", ""⟩
  else
    let partName0 := goTrimSpace (goTrimSuffix filename (pathExt filename))
    if partName0 = "" then ⟨[], "", "", ""⟩
    else
      let partName :=
        if goContains partName0 "_" then
          let ups := goSplit partName0 '_'
          if 0 < ups.length ∧ goTrimSpace (ups.headD "") ≠ "" then
            goTrimSpace (ups.headD "")
          else partName0
        else partName0
      match goSplit partName '-' with
      | [] => ⟨[], "", "", ""⟩
      | [single] => ⟨[], goTrimSpace single, "", "title-only"⟩
      | first :: restItems =>
        let part1 := goTrimSpace first
        let part2 := goTrimSpace (String.intercalate "-" restItems)
        if part1 = "" ∧ part2 ≠ "" then ⟨[], part2, "", "title-only"⟩
        else if part2 = "" ∧ part1 ≠ "" then ⟨[], part1, "", "title-only"⟩
        else if part1 = "" ∧ part2 = "" then ⟨[], "", "", "empty"⟩
        else
          let ana := analyzeByLanguage part1 part2
          let base : FilenameMeta :=
            if 10 * ana.2.1 > 7 * ana.2.2 then
              if ana.1 then
                ⟨[removeQualitySuffix part1], removeQualitySuffix part2, "",
                  "artist-title"⟩
              else
                ⟨[removeQualitySuffix part2], removeQualitySuffix part1, "",
                  "title-artist"⟩
            else
              let cleanPart1 := removeQualitySuffix part1
              let cleanPart2 := removeQualitySuffix part2
              if quickIdentifyArtist cleanPart1 ∧ ¬quickIdentifyArtist cleanPart2 then
                ⟨[cleanPart1], cleanPart2, "", "artist-title"⟩
              else if quickIdentifyArtist cleanPart2 ∧ ¬quickIdentifyArtist cleanPart1
                then ⟨[cleanPart2], cleanPart1, "", "title-artist"⟩
              else if isLikelyArtistName cleanPart1 ∧ isLikelySongTitle cleanPart2 then
                ⟨[cleanPart1], cleanPart2, "", "artist-title"⟩
              else if isLikelySongTitle cleanPart1 ∧ isLikelyArtistName cleanPart2 then
                ⟨[cleanPart2], cleanPart1, "", "title-artist"⟩
              else if ana.1 then ⟨[cleanPart1], cleanPart2, "", "artist-title"⟩
              else ⟨[cleanPart2], cleanPart1, "", "title-artist"⟩
          if base.artists.isEmpty then base
          else { base with artists := splitArtists base.artists }

/-- `processor.formatFilename` (the `title-artist`/`artist-title` paths): parse the
input name, fall back to it when no title is found, otherwise join the artists with
`", "` and emit `title - artists` or `artists - title`. -/
def formatFilename (inputFilename audioExt : String) (titleFirst : Bool) : String :=
  let meta := SmartParseFilenameMeta inputFilename
  if meta.title = "" then inputFilename ++ audioExt
  else
    let artistStr := if meta.artists.isEmpty then "" else String.intercalate ", " meta.artists
    if titleFirst ∧ artistStr ≠ "" then meta.title ++ " - " ++ artistStr ++ audioExt
    else if ¬titleFirst ∧ artistStr ≠ "" then artistStr ++ " - " ++ meta.title ++ audioExt
    else meta.title ++ audioExt

/-- `processor.formatFilenameAuto` (the `auto` path): mirror the detected original
format. -/
def formatFilenameAuto (inputFilename audioExt : String) : String :=
  let meta := SmartParseFilenameMeta inputFilename
  if meta.title = "" then inputFilename ++ audioExt
  else
    let artistStr := if meta.artists.isEmpty then "" else String.intercalate ", " meta.artists
    if meta.originalFormat = "title-artist" then
      if artistStr ≠ "" then meta.title ++ " - " ++ artistStr ++ audioExt
      else meta.title ++ audioExt
    else if meta.originalFormat = "artist-title" then
      if artistStr ≠ "" then artistStr ++ " - " ++ meta.title ++ audioExt
      else meta.title ++ audioExt
    else if meta.originalFormat = "title-only" ∨ meta.originalFormat = "empty" then
      meta.title ++ audioExt
    else
      if artistStr ≠ "" then artistStr ++ " - " ++ meta.title ++ audioExt
      else meta.title ++ audioExt

/-- `processor.generateOutputFilename`: dispatch on the naming format (`original`
keeps the input name; unknown values fall through to `auto`). -/
def generateOutputFilename (namingFormat inputFilename audioExt : String) : String :=
  if namingFormat = "original" then inputFilename ++ audioExt
  else if namingFormat = "title-artist" then formatFilename inputFilename audioExt true
  else if namingFormat = "artist-title" then formatFilename inputFilename audioExt false
  else formatFilenameAuto inputFilename audioExt

/-- The stem the formatter produces: the output filename with the audio extension
stripped again (the claim's notion of re-parsable stem). -/
def formatStem (namingFormat inputFilename audioExt : String) : String :=
  goTrimSuffix (generateOutputFilename namingFormat inputFilename audioExt) audioExt

/-- C9 counterexample: the formatter is not idempotent on stems for `title-artist`
or `artist-title`.  `"Monkey Story - Purple Heart"` formats (title-artist) to the
stem `"Purple Heart - Monkey Story"`, which formats back to
`"Monkey Story - Purple Heart"`: both sides score as likely-artist AND likely-title,
so the low-confidence heuristic labels whichever side is first as the artist.
Likewise `"abcdefgh - ijklmnpq"` (artist-title) flips on every application because
the analysis ties and the tie-breaker labels the first side as the title. -/
theorem naming_idempotence_counterexample :
    formatStem "title-artist"
        (formatStem "title-artist" "Monkey Story - Purple Heart" ".mp3") ".mp3" ≠
      formatStem "title-artist" "Monkey Story - Purple Heart" ".mp3" ∧
    formatStem "artist-title"
        (formatStem "artist-title" "abcdefgh - ijklmnpq" ".mp3") ".mp3" ≠
      formatStem "artist-title" "abcdefgh - ijklmnpq" ".mp3" := by
  constructor
  · decide
  · decide

theorem goTrimSuffix_append (s ext : String) : goTrimSuffix (s ++ ext) ext = s := by
  unfold goTrimSuffix goHasSuffix
  have hsuf : ext.data.isSuffixOf (s ++ ext).data = true := by
    rw [String.data_append]
    simp [List.isSuffixOf]
  rw [if_pos hsuf, String.data_append, List.length_append]
  have h1 : s.data.length + ext.data.length - ext.data.length = s.data.length := by
    omega
  rw [h1, List.take_left]

/-- C9 amended: the output filename formatter is idempotent on stems for
`naming_format = original` — for every input filename and audio extension, applying
the formatter to the stem it produced (the output with the extension stripped)
yields the same stem again.  For `title-artist` and `artist-title` idempotence
fails (see the counterexample). -/
theorem naming_idempotence_original (name ext : String) :
    formatStem "original" (formatStem "original" name ext) ext =
      formatStem "original" name ext := by
  have h : ∀ s : String, formatStem "original" s ext = s := by
    intro s
    unfold formatStem generateOutputFilename
    rw [if_pos rfl]
    exact goTrimSuffix_append s ext
  rw [h, h]
